import Mathlib

/-!
Profile retrieval and merge pipeline (`internal/driver/fetch.go`).

A shallow embedding of the fetch/merge driver of the profiling tool, followed by
theorems about it.  External collaborators (the profile container, the object
inspection tool, the HTTP transport, the file system and the path library) are
taken as explicit parameters; everything written in `fetch.go` itself is
translated function by function.

Conventions.
* A Go `error` result is an `Except String _`; the message text is kept where the
  source builds it.
* A non-nil `*profile.Profile` is a value of the profile type; a possibly-nil
  pointer is an `Option`.
* A Go map with string keys is an association list with unique keys (`AList`);
  the code only reads and ranges over registries it did not create, so a nil
  registry is represented by the empty one.  Go's iteration order over a map is
  unspecified: all statements about registries are made through `lookup`, which
  does not depend on it.
* `time.Duration` is a signed 64-bit count of nanoseconds: an `Int` kept in range
  by `wrap64`.
-/

namespace Driver

/-! ## Data model -/

/-- One provenance record of `plugin.MappingSources`:
`struct { Source string; Start uint64 }`. -/
structure MapSrc where
  Source : String
  Start : Nat
deriving DecidableEq, Repr

/-- The registry `plugin.MappingSources`, a `map[string][]struct{Source; Start}`. -/
abbrev MappingSources := AList (fun _ : String => List MapSrc)

/-- The profile container operations used by the merge coordinator:
`measurement.ScaleProfiles` (which rescales the profiles in place, returned here
as the rescaled list) and `profile.Merge`. -/
structure ProfileTools (P : Type) where
  ScaleProfiles : List P → Except String (List P)
  Merge : List P → Except String P

/-! ## Merge/scale coordinator -/

/-- The loop body `msrc[m] = append(msrc[m], s...)`. -/
def appendSources (msrc : MappingSources) (m : String) (s : List MapSrc) : MappingSources :=
  msrc.insert m ((msrc.lookup m).getD [] ++ s)

/-- The nested loop of `combineProfiles` over the registry fragments, starting
from the fresh map `make(plugin.MappingSources)`. -/
def combineMappingSources (msrcs : List MappingSources) : MappingSources :=
  msrcs.foldl
    (fun msrc ms => ms.entries.foldl (fun acc e => appendSources acc e.1 e.2) msrc) ∅

/-- Embedding of `combineProfiles`: rescale to common units, merge, then
concatenate the registry fragments. -/
def combineProfiles {P : Type} (t : ProfileTools P) (profiles : List P)
    (msrcs : List MappingSources) : Except String (P × MappingSources) :=
  match t.ScaleProfiles profiles with
  | .error err => .error err
  | .ok scaled =>
    match t.Merge scaled with
    | .error err => .error err
    | .ok p => .ok (p, combineMappingSources msrcs)

/-- The sequences the fragments hold for key `k`, in input-list order. -/
def fragmentsAt (k : String) (msrcs : List MappingSources) : List (List MapSrc) :=
  msrcs.filterMap (fun ms => ms.lookup k)

/-- The first two steps of `combineProfiles` taken together: rescale to common
units, then merge.  This is the function the theorems call the scale/merge
collaborator. -/
def scaleMerge {P : Type} (t : ProfileTools P) (profiles : List P) : Except String P :=
  match t.ScaleProfiles profiles with
  | .error err => .error err
  | .ok scaled => t.Merge scaled

/-! ## Chunked grab orchestrator -/

/-- A fetch unit (`profileSource`) as `fetchProfiles` creates it: address and
scale (`1` for a target, `-1` for a baseline).  The `source` back-reference is the
one descriptor shared by all units and is held by the single-source fetcher; the
result slots `p`, `msrc`, `remote`, `err` are the fetcher's `GrabResult`. -/
structure ProfileSource where
  addr : String
  scale : Int
deriving DecidableEq, Repr

/-- The result slots of a unit after a successful `grabProfile`. -/
structure GrabResult (P : Type) where
  p : P
  msrc : MappingSources
  remote : Bool

/-- The single-source fetcher as the orchestrator sees it: each unit's outcome,
written to the unit's slots before the `wg.Wait()` barrier.  The outcome is fixed
per unit: it is a function of the unit's address and scale. -/
abbrev Grabber (P : Type) := ProfileSource → Except String (GrabResult P)

/-- The values `(*profile.Profile, plugin.MappingSources, bool, int)` that
`concurrentGrab` and `chunkedGrab` return next to a nil error. -/
structure Grabbed (P : Type) where
  p : Option P
  msrc : MappingSources
  save : Bool
  count : Nat

/-- State of the second loop of `concurrentGrab`. -/
structure Collected (P : Type) where
  save : Bool
  profiles : List P
  msrcs : List MappingSources

/-- One iteration of the second loop of `concurrentGrab`: an errored unit is
reported and skipped, a successful one is appended. -/
def collectUnit {P : Type} (acc : Collected P) (r : Except String (GrabResult P)) :
    Collected P :=
  match r with
  | .error _ => acc
  | .ok g => ⟨acc.save || g.remote, acc.profiles ++ [g.p], acc.msrcs ++ [g.msrc]⟩

/-- Embedding of `concurrentGrab`.  Every unit is fetched (each worker writes only
its own slots and the barrier is awaited, so the slot contents are `sources.map
grab`), then the survivors are combined in input order. -/
def concurrentGrab {P : Type} (t : ProfileTools P) (grab : Grabber P)
    (sources : List ProfileSource) : Except String (Grabbed P) :=
  let c := (sources.map grab).foldl collectUnit ⟨false, [], []⟩
  if c.profiles.length = 0 then
    .ok ⟨none, ∅, false, 0⟩
  else
    match combineProfiles t c.profiles c.msrcs with
    | .error err => .error err
    | .ok (p, msrc) => .ok ⟨some p, msrc, c.save, c.profiles.length⟩

/-- The loop of `chunkedGrab`, with the constant `chunkSize` as a parameter.
`fuel` bounds the number of loop tests; `none` means the bound was reached. -/
def chunkedLoop {P : Type} (t : ProfileTools P) (grab : Grabber P) (chunkSize : Nat)
    (sources : List ProfileSource) : Nat → Nat → Grabbed P → Option (Except String (Grabbed P))
  | 0, _, _ => none
  | fuel + 1, start, st =>
    if start < sources.length then
      let stop := if start + chunkSize > sources.length then sources.length
        else start + chunkSize
      match concurrentGrab t grab ((sources.drop start).take (stop - start)) with
      | .error chunkErr => some (.error chunkErr)
      | .ok chunk =>
        match chunk.p with
        | none => chunkedLoop t grab chunkSize sources fuel (start + chunkSize) st
        | some chunkP =>
          match st.p with
          | none =>
            chunkedLoop t grab chunkSize sources fuel (start + chunkSize)
              ⟨some chunkP, chunk.msrc, chunk.save, chunk.count⟩
          | some p =>
            match combineProfiles t [p, chunkP] [st.msrc, chunk.msrc] with
            | .error chunkErr => some (.error chunkErr)
            | .ok (p2, msrc2) =>
              chunkedLoop t grab chunkSize sources fuel (start + chunkSize)
                ⟨some p2, msrc2, if chunk.save then true else st.save,
                  st.count + chunk.count⟩
    else some (.ok st)

/-- The function `chunkedGrab` with its batch size made a parameter. -/
def chunkedGrabWith {P : Type} (t : ProfileTools P) (grab : Grabber P) (chunkSize : Nat)
    (sources : List ProfileSource) : Option (Except String (Grabbed P)) :=
  chunkedLoop t grab chunkSize sources (sources.length + 1) 0 ⟨none, ∅, false, 0⟩

/-- Embedding of `chunkedGrab`: `const chunkSize = 64`. -/
def chunkedGrab {P : Type} (t : ProfileTools P) (grab : Grabber P)
    (sources : List ProfileSource) : Option (Except String (Grabbed P)) :=
  chunkedGrabWith t grab 64 sources

/-- The successful slot contents of a list of units, in input order. -/
def goods {P : Type} (grab : Grabber P) (sources : List ProfileSource) :
    List (GrabResult P) :=
  sources.filterMap (fun s => match grab s with
    | .ok g => some g
    | .error _ => none)

/-! ## Top-level fetch -/

/-- The descriptor `source`: what to fetch and how. -/
structure Source where
  Sources : List String
  Base : List String
  ExecName : String
  BuildID : String
  Seconds : Int
  Timeout : Int
  Symbolize : String

/-- The process environment and directory creation, as `setTmpDir` uses them:
`os.Getenv` and `os.MkdirAll` (`none` is a nil error). -/
structure TmpEnv where
  Getenv : String → String
  MkdirAll : String → Option String

/-- Embedding of `setTmpDir`.  The value is what `PPROF_TMPDIR` holds afterwards;
the error is the one the source returns when neither candidate can be created. -/
def setTmpDir (e : TmpEnv) : Except String String :=
  if e.Getenv "PPROF_TMPDIR" ≠ "" then .ok (e.Getenv "PPROF_TMPDIR")
  else
    match [e.Getenv "HOME" ++ "/pprof", "/tmp"].find? (fun tmpDir => (e.MkdirAll tmpDir).isNone) with
    | some tmpDir => .ok tmpDir
    | none => .error "failed to identify temp dir"

/-- The parts of `plugin.Options` and of the profile container that
`fetchProfiles` calls after the grab: `o.Sym.Symbolize` (which updates the profile
in place), `p.RemoveUninteresting` and `p.CheckValid` (`none` is a nil error). -/
structure Options (P : Type) where
  Symbolize : String → MappingSources → P → Except String P
  RemoveUninteresting : P → P
  CheckValid : P → Option String

/-- The flat list of fetch units `fetchProfiles` builds: targets with scale `1`,
then baselines with scale `-1`. -/
def fetchUnits (s : Source) : List ProfileSource :=
  s.Sources.map (fun src => ⟨src, 1⟩) ++ s.Base.map (fun src => ⟨src, -1⟩)

/-- Embedding of `fetchProfiles`.  The outer `Option` is the loop bound of
`chunkedLoop`.  Messages to the UI and the best-effort save of the merged profile
(which never changes the returned values) are not part of the result.  A nil
aggregate next to a non-zero count would be dereferenced by the source; that case
is reported as the error `nil profile`. -/
def fetchProfiles {P : Type} (e : TmpEnv) (t : ProfileTools P) (o : Options P)
    (grab : Grabber P) (s : Source) : Option (Except String P) :=
  match setTmpDir e with
  | .error err => some (.error err)
  | .ok _ =>
    match chunkedGrab t grab (fetchUnits s) with
    | none => none
    | some (.error err) => some (.error err)
    | some (.ok g) =>
      if g.count = 0 then some (.error "failed to fetch any profiles")
      else
        match g.p with
        | none => some (.error "nil profile")
        | some p =>
          match o.Symbolize s.Symbolize g.msrc p with
          | .error err => some (.error err)
          | .ok p1 =>
            let p2 := o.RemoveUninteresting p1
            match o.CheckValid p2 with
            | some err => some (.error err)
            | none => some (.ok p2)

/-- Whether a unit's fetch returned without error. -/
def fetched {P : Type} (grab : Grabber P) (u : ProfileSource) : Bool :=
  match grab u with
  | .ok _ => true
  | .error _ => false

/-- What the running aggregate of `chunkedGrab` is, in terms of the successful
units `done` folded into it so far. -/
structure AggInv {P : Type} (t : ProfileTools P) (st : Grabbed P)
    (done : List (GrabResult P)) : Prop where
  count : st.count = done.length
  save : st.save = done.any (fun g => g.remote)
  nonnil : st.p = none ↔ done = []
  lookup : ∀ k, st.msrc.lookup k =
    if fragmentsAt k (done.map (fun g => g.msrc)) = [] then none
    else some (fragmentsAt k (done.map (fun g => g.msrc))).flatten
  profile : ∀ m : List P → P,
    (∀ xs, xs ≠ [] → scaleMerge t xs = .ok (m xs)) →
    (∀ xs ys, xs ≠ [] → ys ≠ [] → m (xs ++ ys) = m [m xs, m ys]) →
    done ≠ [] → st.p = some (m (done.map (fun g => g.p)))

/-! ## Concrete collaborators used in the examples -/

/-- A toy profile container: a profile is a number, rescaling does nothing and
merging adds; merging no profile at all is an error, as in `profile.Merge`. -/
def sumTools : ProfileTools Nat where
  ScaleProfiles := fun ps => .ok ps
  Merge := fun ps => if ps = [] then .error "no profiles to merge" else .ok ps.sum

/-- A fetcher for the examples: `good` and `remote` succeed (the second with a
registry fragment for build identity `abc123`), everything else fails. -/
def sampleGrab : Grabber Nat := fun u =>
  if u.addr = "good" then .ok ⟨1, ∅, false⟩
  else if u.addr = "remote" then
    .ok ⟨2, (∅ : MappingSources).insert "abc123" [⟨"http://remote", 4096⟩], true⟩
  else .error "fetch failed"

/-- An environment in which `PPROF_TMPDIR` is already set. -/
def sampleTmpEnv : TmpEnv where
  Getenv := fun k => if k = "PPROF_TMPDIR" then "/tmp" else ""
  MkdirAll := fun _ => none

/-- Downstream steps that change nothing and never fail. -/
def sampleOptions : Options Nat where
  Symbolize := fun _ _ p => .ok p
  RemoveUninteresting := fun p => p
  CheckValid := fun _ => none

/-- A descriptor whose two addresses both fail under `sampleGrab`. -/
def failingSource : Source where
  Sources := ["down"]
  Base := ["gone"]
  ExecName := ""
  BuildID := ""
  Seconds := 0
  Timeout := 0
  Symbolize := ""

/-- Three units: one failing, one local success, one remote success. -/
def mixedUnits : List ProfileSource :=
  [⟨"down", 1⟩, ⟨"good", 1⟩, ⟨"remote", -1⟩]

/-- Registry fragment of a first origin for build identity `abc123`. -/
def fragA : MappingSources :=
  (∅ : MappingSources).insert "abc123" [⟨"http://a/profile", 4096⟩]

/-- Registry fragment of a second origin for the same build identity. -/
def fragB : MappingSources :=
  (∅ : MappingSources).insert "abc123" [⟨"http://b/profile", 8192⟩]

/-! ## URL/transport resolver -/

/-- The value of `time.Second`, in nanoseconds. -/
def second : Int := 1000000000

/-- Two's-complement wrap of an integer into the `int64` range, as Go's signed
arithmetic does on overflow. -/
def wrap64 (x : Int) : Int := (x + 2 ^ 63) % 2 ^ 64 - 2 ^ 63

/-- The fields of a parsed `*url.URL` that `adjustURL` reads or writes; `Rest`
stands for everything else the URL holds. -/
structure URL where
  Scheme : String
  Host : String
  Rest : String
  RawQuery : String
deriving DecidableEq, Repr

/-- The type `url.Values`, a `map[string][]string`. -/
abbrev Values := AList (fun _ : String => List String)

/-- The method `Values.Get`: the first value filed under the key, or the empty string. -/
def Values.Get (v : Values) (key : String) : String :=
  match v.lookup key with
  | some (x :: _) => x
  | _ => ""

/-- The method `Values.Set`: replace whatever is filed under the key by the one value. -/
def Values.Set (v : Values) (key value : String) : Values :=
  v.insert key [value]

/-- The functions of `net/url` and `fmt` that `adjustURL` calls: `url.Parse`,
`(*URL).Query`, `Values.Encode`, `(*URL).String`, and
`fmt.Sprint(int(duration.Seconds()))` (the decimal text of a duration's seconds,
computed in floating point by the library). -/
structure URLTools where
  Parse : String → Except String URL
  Query : URL → Values
  Encode : Values → String
  Render : URL → String
  SprintSeconds : Int → String

/-- Decimal digits to a number, as `strconv.ParseUint(s, 10, _)` reads them:
at least one character and nothing but `0`..`9`. -/
def parseDigits (cs : List Char) : Option Nat :=
  if cs = [] then none
  else cs.foldl (fun acc c => acc.bind (fun n =>
    if c.isDigit then some (10 * n + (c.toNat - 48)) else none)) (some 0)

/-- The call `strconv.ParseInt(s, 10, 32)`, `none` standing for a non-nil error:
an optional sign, decimal digits, and a value that fits 32 signed bits. -/
def parseInt32 (s : String) : Option Int :=
  match s.toList with
  | [] => none
  | '+' :: cs => (parseDigits cs).bind (fun un => if un ≥ 2 ^ 31 then none else some (un : Int))
  | '-' :: cs => (parseDigits cs).bind (fun un => if un > 2 ^ 31 then none else some (-(un : Int)))
  | cs => (parseDigits cs).bind (fun un => if un ≥ 2 ^ 31 then none else some (un : Int))

/-- The first half of `adjustURL`: parse, retry with an `http://` prefix when the
first parse failed or produced a scheme other than `file` without a host, and
give up (`none`, the source's `return "", 0`) when no host results. -/
def resolveURL (u : URLTools) (source : String) : Option URL :=
  let retry : Bool :=
    match u.Parse source with
    | .error _ => true
    | .ok x => x.Host = "" && x.Scheme ≠ "" && x.Scheme ≠ "file"
  let parsed := if retry then u.Parse ("http://" ++ source) else u.Parse source
  match parsed with
  | .error _ => none
  | .ok x => if x.Host = "" then none else some x

/-- The duration `adjustURL` works with after looking at the query: the caller's
when positive, else the one parsed from `seconds` when that parses, else the
caller's unchanged. -/
def adjustDuration (values : Values) (duration : Int) : Int :=
  if duration > 0 then duration
  else
    if values.Get "seconds" ≠ "" then
      match parseInt32 (values.Get "seconds") with
      | some us => wrap64 (us * second)
      | none => duration
    else duration

/-- The timeout `adjustURL` returns for a recognised URL. -/
def adjustTimeout (duration timeout : Int) : Int :=
  if timeout ≤ 0 then
    if duration > 0 then wrap64 (duration + duration.tdiv 2)
    else 60 * second
  else timeout

/-- Embedding of `adjustURL`. -/
def adjustURL (u : URLTools) (source : String) (duration timeout : Int) : String × Int :=
  match resolveURL u source with
  | none => ("", 0)
  | some x =>
    let values := u.Query x
    let values2 :=
      if duration > 0 then values.Set "seconds" (u.SprintSeconds duration) else values
    let duration2 := adjustDuration values duration
    let timeout2 := adjustTimeout duration2 timeout
    (u.Render { x with RawQuery := u.Encode values2 }, timeout2)

/-- The effective duration in the words of the specification: the caller's
duration if positive, otherwise the whole seconds parsed from the `seconds` query
parameter, zero if absent or unparsable. -/
def effectiveDuration (values : Values) (duration : Int) : Int :=
  if duration > 0 then duration
  else
    match parseInt32 (values.Get "seconds") with
    | some us => us * second
    | none => 0

/-- Whether a number is a value of `time.Duration` (`int64`). -/
def isInt64 (x : Int) : Prop := -(2 ^ 63) ≤ x ∧ x < 2 ^ 63

/-! ## HTTP fetch -/

/-- The parts of `*http.Response` that `fetchURL` reads; the body is a byte
stream. -/
structure Response where
  StatusCode : Int
  Status : String
  Body : List Nat
deriving DecidableEq, Repr

/-- The variable `httpGet`: a GET with the given timeout. -/
abbrev HTTPGet := String → Int → Except String Response

/-- Embedding of `fetchURL`; `http.StatusOK` is 200. -/
def fetchURL (httpGet : HTTPGet) (source : String) (timeout : Int) :
    Except String (List Nat) :=
  match httpGet source timeout with
  | .error err => .error ("http fetch " ++ source ++ ": " ++ err)
  | .ok resp =>
    if resp.StatusCode ≠ 200 then .error ("server response: " ++ resp.Status)
    else .ok resp.Body

/-- A stand-in for `net/url` that knows three strings, answering as the library
does for them. -/
def sampleURLTools : URLTools where
  Parse := fun s =>
    if s = "http://myhost:8080/profile?seconds=5" then
      .ok ⟨"http", "myhost:8080", "/profile", "seconds=5"⟩
    else if s = "http://myhost:8080/profile" then
      .ok ⟨"http", "myhost:8080", "/profile", ""⟩
    else if s = "myhost:8080/profile?seconds=5" then
      .ok ⟨"myhost", "", "8080/profile", "seconds=5"⟩
    else .error "parse error"
  Query := fun x =>
    if x.RawQuery = "seconds=5" then (∅ : Values).insert "seconds" ["5"] else ∅
  Encode := fun v => if v.Get "seconds" = "" then "" else "seconds=" ++ v.Get "seconds"
  Render := fun x =>
    x.Scheme ++ "://" ++ x.Host ++ x.Rest ++ (if x.RawQuery = "" then "" else "?" ++ x.RawQuery)
  SprintSeconds := fun d => toString (d.tdiv 1000000000)

/-- A transport that answers every GET with the given status and a two-byte body. -/
def statusTransport (code : Int) (status : String) : HTTPGet :=
  fun _ _ => .ok ⟨code, status, [31, 139]⟩

/-! ## Format sniffer and converter -/

/-- What the file system holds under a path that `os.Open` can open: the bytes,
and the faults the handle reports (`none` for a regular readable file): an I/O
error of `Read` other than `io.EOF`, and an error of `Seek`. -/
structure FileData where
  content : List Nat
  readFault : Option String
  seekFault : Option String
deriving DecidableEq, Repr

/-- An open `*os.File`: the data plus the current offset. -/
structure File where
  data : FileData
  offset : Nat
deriving DecidableEq, Repr

/-- How a `Read` ended: a nil error, `io.EOF`, or another error. -/
inductive ReadErr where
  | nil
  | eof
  | other (msg : String)
deriving DecidableEq, Repr

/-- The method `(*os.File).Read` on a buffer: as many bytes as the buffer takes
and the file still has are copied to the front of the buffer and the offset
advances; nothing left to read (for a non-empty buffer) is `io.EOF`. -/
def File.Read (f : File) (buf : List Nat) : List Nat × File × ReadErr :=
  match f.data.readFault with
  | some msg => (buf, f, .other msg)
  | none =>
    let chunk := (f.data.content.drop f.offset).take buf.length
    if chunk.length = 0 ∧ buf.length ≠ 0 then (buf, f, .eof)
    else (chunk ++ buf.drop chunk.length, { f with offset := f.offset + chunk.length }, .nil)

/-- The call `Seek(0, 0)`: back to the start, unless the handle cannot seek. -/
def File.SeekStart (f : File) : File × Option String :=
  match f.data.seekFault with
  | some msg => (f, some msg)
  | none => ({ f with offset := 0 }, none)

/-- Everything a reader gets from the handle from its current offset on. -/
def File.readAll (f : File) : List Nat := f.data.content.drop f.offset

/-- The outside world of the format sniffer: `os.Open`, `rand.Read` on a 32-byte
buffer, base64 encoding, the two pipe set-ups of `exec.Cmd`, and `cmd.Run` on an
argument vector (`none` is a nil error). -/
structure ReaderEnv where
  Open : String → Except String FileData
  RandRead : Except String (List Nat)
  EncodeToString : List Nat → String
  StdoutPipe : Option String
  StderrPipe : Option String
  Run : List String → Option String

/-- The magic marker `[]byte("PERFILE2")`. -/
def perfHeader : List Nat := "PERFILE2".toList.map Char.toNat

/-- Embedding of `convertPerfData`: the path of the converted file, or the first
error met. -/
def convertPerfData (e : ReaderEnv) (perfPath : String) : Except String String :=
  match e.RandRead with
  | .error randErr => .error randErr
  | .ok randomBytes =>
    let randomFileName := "/tmp/pprof_" ++ e.EncodeToString randomBytes
    match e.StdoutPipe with
    | some stdoutErr => .error stdoutErr
    | none =>
      match e.StderrPipe with
      | some stderrErr => .error stderrErr
      | none =>
        match e.Run ["perf_to_profile", perfPath, randomFileName] with
        | some err => .error err
        | none => .ok randomFileName

/-- What `profileProtoReader` did and returned: the paths it handed to
`convertPerfData`, and the stream or error. -/
structure ReaderOutcome where
  converted : List String
  result : Except String File

/-- An `os.Open` call: a handle at offset 0 on success. -/
def openFile (e : ReaderEnv) (path : String) : Except String File :=
  match e.Open path with
  | .error openErr => .error openErr
  | .ok d => .ok ⟨d, 0⟩

/-- Embedding of `profileProtoReader`. -/
def profileProtoReader (e : ReaderEnv) (path : String) : ReaderOutcome :=
  match openFile e path with
  | .error openErr => ⟨[], .error openErr⟩
  | .ok sourceFile =>
    let actualHeader := List.replicate perfHeader.length 0
    match sourceFile.Read actualHeader with
    | (actualHeader, sourceFile, readErr) =>
      match sourceFile.SeekStart with
      | (_, some seekErr) => ⟨[], .error seekErr⟩
      | (sourceFile, none) =>
        match readErr with
        | .other msg => ⟨[], .error msg⟩
        | _ =>
          if actualHeader = perfHeader then
            match convertPerfData e path with
            | .error convertErr => ⟨[path], .error convertErr⟩
            | .ok profileFile => ⟨[path], openFile e profileFile⟩
          else ⟨[], .ok sourceFile⟩

/-- A file system with three regular files: the seven bytes `PERFILE`, a file
that starts with `PERFILE2`, and the converter's output. -/
def sampleReaderEnv : ReaderEnv where
  Open := fun path =>
    if path = "short.data" then .ok ⟨[80, 69, 82, 70, 73, 76, 69], none, none⟩
    else if path = "perf.data" then .ok ⟨[80, 69, 82, 70, 73, 76, 69, 50, 1, 2, 3], none, none⟩
    else if path = "/tmp/pprof_AAAA" then .ok ⟨[31, 139, 8], none, none⟩
    else .error "no such file"
  RandRead := .ok (List.replicate 32 0)
  EncodeToString := fun _ => "AAAA"
  StdoutPipe := none
  StderrPipe := none
  Run := fun _ => none

/-! ## Binary locator -/

/-- A `profile.Mapping`, the fields the driver reads or writes. -/
structure Mapping where
  Start : Nat
  Limit : Nat
  Offset : Nat
  File : String
  BuildID : String
deriving DecidableEq, Repr

/-- A `profile.Profile`: its ordered mapping list, and `rest` for everything the
driver only passes on.  A valid profile holds each mapping once, so the list is
a list of values. -/
structure Profile (R : Type) where
  Mapping : List Mapping
  rest : R

/-- The functions of `os` and `path/filepath` that `locateBinaries` calls. -/
structure PathTools where
  Getenv : String → String
  Join : List String → String
  Base : String → String
  SplitList : String → List String
  Glob : String → Except String (List String)

/-- The result of `obj.Open` that `locateBinaries` looks at: `f.BuildID()`. -/
structure ObjFile where
  BuildID : String
deriving DecidableEq, Repr

/-- The method `plugin.ObjTool.Open(name, start, limit, offset)`. -/
abbrev ObjTool := String → Nat → Nat → Nat → Except String ObjFile

/-- The search path `locateBinaries` examines: `PPROF_BINARY_PATH`, or
`$HOME/pprof/binaries` when that is empty. -/
def searchPath (e : PathTools) : String :=
  if e.Getenv "PPROF_BINARY_PATH" = "" then e.Join [e.Getenv "HOME", "pprof", "binaries"]
  else e.Getenv "PPROF_BINARY_PATH"

/-- The override step at the head of the mapping loop: the first mapping takes
the descriptor's executable name and build identity when they are set. -/
def overrideMapping (s : Source) (i : Nat) (m : Mapping) : Mapping :=
  if i = 0 then
    let m1 := if s.ExecName ≠ "" then { m with File := s.ExecName } else m
    if s.BuildID ≠ "" then { m1 with BuildID := s.BuildID } else m1
  else m

/-- The variable `baseName` of the mapping loop. -/
def searchBase (e : PathTools) (m : Mapping) : String :=
  if m.File ≠ "" then e.Base m.File else ""

/-- The slice `fileNames` built for one search path entry. -/
def fileNames (e : PathTools) (m : Mapping) (baseName path : String) : List String :=
  let byID :=
    if m.BuildID ≠ "" then
      [e.Join [path, m.BuildID, baseName]] ++
        (match e.Glob (e.Join [path, m.BuildID, "*"]) with
          | .ok found => found
          | .error _ => [])
    else []
  if baseName ≠ "" then byID ++ [e.Join [path, baseName]] else byID

/-- The innermost loop: the first name that opens and whose build identity does
not conflict with the mapping's. -/
def tryNames (obj : ObjTool) (m : Mapping) : List String → Option String
  | [] => none
  | name :: rest =>
    match obj name m.Start m.Limit m.Offset with
    | .ok f =>
      if m.BuildID ≠ "" ∧ m.BuildID ≠ f.BuildID then tryNames obj m rest
      else some name
    | .error _ => tryNames obj m rest

/-- The loop over the search path entries. -/
def tryPaths (e : PathTools) (obj : ObjTool) (m : Mapping) (baseName : String) :
    List String → Option String
  | [] => none
  | path :: rest =>
    match tryNames obj m (fileNames e m baseName path) with
    | some name => some name
    | none => tryPaths e obj m baseName rest

/-- The name the search accepts for mapping `i`, if any. -/
def locateSearch (e : PathTools) (obj : ObjTool) (s : Source) (i : Nat) (m : Mapping) :
    Option String :=
  tryPaths e obj (overrideMapping s i m) (searchBase e (overrideMapping s i m))
    (e.SplitList (searchPath e))

/-- One iteration of the mapping loop of `locateBinaries`. -/
def locateMapping (e : PathTools) (obj : ObjTool) (s : Source) (i : Nat) (m : Mapping) :
    Mapping :=
  match locateSearch e obj s i m with
  | some name => { overrideMapping s i m with File := name }
  | none => overrideMapping s i m

/-- The mapping loop from index `i` on. -/
def locateFrom (e : PathTools) (obj : ObjTool) (s : Source) : Nat → List Mapping → List Mapping
  | _, [] => []
  | i, m :: rest => locateMapping e obj s i m :: locateFrom e obj s (i + 1) rest

/-- Embedding of `locateBinaries`; the profile is updated in place in the source
and returned here. -/
def locateBinaries {R : Type} (e : PathTools) (obj : ObjTool) (p : Profile R) (s : Source) :
    Profile R :=
  { p with Mapping := locateFrom e obj s 0 p.Mapping }

/-- Every candidate of a mapping, in the order the loops try them. -/
def candidates (e : PathTools) (m : Mapping) (baseName : String) (paths : List String) :
    List String :=
  paths.flatMap (fileNames e m baseName)

/-- Whether `obj.Open` succeeds on a name for the mapping's address range. -/
def opens (obj : ObjTool) (m : Mapping) (name : String) : Bool :=
  match obj name m.Start m.Limit m.Offset with
  | .ok _ => true
  | .error _ => false

/-! ## Mapping sources of one profile -/

/-- The key `collectMappingSources` files a mapping under: the build identity,
else the file, else the origin label. -/
def sourceKey (source : String) (m : Mapping) : String :=
  if m.BuildID ≠ "" then m.BuildID
  else if m.File ≠ "" then m.File
  else source

/-- One iteration of the loop of `collectMappingSources`: the registry and the
mapping as the iteration leaves them. -/
def collectStep (source : String) (ms : MappingSources) (m : Mapping) :
    MappingSources × Mapping :=
  let src : MapSrc := ⟨source, m.Start⟩
  let key := if m.BuildID = "" then m.File else m.BuildID
  let m2 := if key = "" then { m with File := source } else m
  let key2 := if key = "" then source else key
  (ms.insert key2 ((ms.lookup key2).getD [] ++ [src]), m2)

/-- The loop of `collectMappingSources` over the mappings. -/
def collectFrom (source : String) : MappingSources → List Mapping → MappingSources × List Mapping
  | ms, [] => (ms, [])
  | ms, m :: rest =>
    let r := collectStep source ms m
    let t := collectFrom source r.1 rest
    (t.1, r.2 :: t.2)

/-- Embedding of `collectMappingSources`: the registry, and the profile with the
file of every mapping that had neither build identity nor file set to the origin
label. -/
def collectMappingSources {R : Type} (p : Profile R) (source : String) :
    MappingSources × Profile R :=
  let t := collectFrom source ∅ p.Mapping
  (t.1, { p with Mapping := t.2 })

/-- The key in the words of the specification: the build identity when it is
non-empty, the file path otherwise. -/
def specKey (m : Mapping) : String :=
  if m.BuildID ≠ "" then m.BuildID else m.File

/-- Number of pairs a registry holds, over all keys. -/
def pairCount (ms : MappingSources) : Nat :=
  (ms.entries.map (fun e => e.2.length)).sum

/-- The candidates of a mapping as searched, over the whole search path. -/
def candidatesOf (e : PathTools) (m : Mapping) : List String :=
  candidates e m (searchBase e m) (e.SplitList (searchPath e))

/-- The build-identity candidate `P/b/f` of a mapping for a search path entry. -/
def idCandidate (e : PathTools) (m : Mapping) (path : String) : String :=
  e.Join [path, m.BuildID, searchBase e m]

/-! ## A small POSIX-like environment for the locator examples -/

/-- Split a character list at every occurrence of a separator. -/
def splitAt (sep : Char) : List Char → List (List Char)
  | [] => [[]]
  | c :: cs =>
    match splitAt sep cs with
    | [] => [[c]]
    | seg :: segs => if c = sep then [] :: seg :: segs else (c :: seg) :: segs

/-- The behaviour of `filepath.SplitList` on a colon-separated list. -/
def posixSplitList (s : String) : List String :=
  if s = "" then [] else (splitAt ':' s.toList).map String.mk

/-- The behaviour of `filepath.Base` on a path without trailing slash: the last
element. -/
def posixBase (s : String) : String :=
  match (splitAt '/' s.toList).getLast? with
  | some seg => String.mk seg
  | none => s

/-- The behaviour of `filepath.Join` on clean elements: the non-empty elements,
separated by slashes. -/
def posixJoin (elems : List String) : String :=
  String.intercalate "/" (elems.filter (fun x => x ≠ ""))

/-- Two search directories; the second holds a build-id cache directory
`abc123` with the single file `other`. -/
def cacheTools : PathTools where
  Getenv := fun k => if k = "PPROF_BINARY_PATH" then "/p1:/p2" else ""
  Join := posixJoin
  Base := posixBase
  SplitList := posixSplitList
  Glob := fun pattern => if pattern = "/p2/abc123/*" then .ok ["/p2/abc123/other"] else .ok []

/-- An object tool for `cacheTools`: `/p2/abc123/other` and `/p1/other` are
binaries with build identity `abc123`, nothing else opens. -/
def cacheObj : ObjTool := fun name _ _ _ =>
  if name = "/p2/abc123/other" ∨ name = "/p1/other" then .ok ⟨"abc123"⟩
  else .error "no such file"

/-- An object tool for `cacheTools` under which `/p2/abc123/other` reports the
build identity `xyz999`, and nothing else opens. -/
def wrongObj : ObjTool := fun name _ _ _ =>
  if name = "/p2/abc123/other" then .ok ⟨"xyz999"⟩ else .error "no such file"

/-- A descriptor without overrides. -/
def plainSource : Source where
  Sources := []
  Base := []
  ExecName := ""
  BuildID := ""
  Seconds := 0
  Timeout := 0
  Symbolize := ""

/-- A profile with one mapping, for file `foo` with build identity `abc123`. -/
def fooProfile : Profile Unit where
  Mapping := [⟨4096, 8192, 0, "foo", "abc123"⟩]
  rest := ()

/-- A profile with one mapping named `other`, the name of the cached binary. -/
def otherProfile : Profile Unit where
  Mapping := [⟨4096, 8192, 0, "/remote/bin/other", "abc123"⟩]
  rest := ()

/-- A profile whose only mapping has neither build identity nor file. -/
def bareProfile : Profile Unit where
  Mapping := [⟨4096, 8192, 0, "", ""⟩]
  rest := ()

/-- An object tool for `cacheTools` under which `/p2/abc123/foo` is a binary
with build identity `abc123`, and nothing else opens. -/
def exactObj : ObjTool := fun name _ _ _ =>
  if name = "/p2/abc123/foo" then .ok ⟨"abc123"⟩ else .error "no such file"

/-- A profile with two mappings of one binary and one bare mapping. -/
def threeMappings : Profile Unit where
  Mapping := [⟨4096, 8192, 0, "/bin/a", "abc123"⟩, ⟨16384, 32768, 0, "", ""⟩,
    ⟨8192, 12288, 4096, "/bin/a", "abc123"⟩]
  rest := ()

/-- A descriptor that overrides the executable name only. -/
def execNameSource : Source where
  Sources := []
  Base := []
  ExecName := "/x/bar"
  BuildID := ""
  Seconds := 0
  Timeout := 0
  Symbolize := ""

/-- A descriptor that overrides the build identity only. -/
def buildIDSource : Source where
  Sources := []
  Base := []
  ExecName := ""
  BuildID := "zzz"
  Seconds := 0
  Timeout := 0
  Symbolize := ""

/-- An object tool under which no file opens. -/
def noObj : ObjTool := fun _ _ _ _ => .error "no such file"

/-- An object tool for `cacheTools` under which `/p1/zzz/foo` is a binary with
build identity `zzz`, and nothing else opens. -/
def zzzObj : ObjTool := fun name _ _ _ =>
  if name = "/p1/zzz/foo" then .ok ⟨"zzz"⟩ else .error "no such file"

/-! ## Single-source fetcher -/

/-- The collaborators of one fetch: the URL library, the HTTP transport, the file
system of the format sniffer, the path library of the binary locator, and the
profile container's `profile.Parse`, `CheckValid` (`none` is a nil error) and
`Scale`. -/
structure World (R : Type) where
  url : URLTools
  httpGet : HTTPGet
  reader : ReaderEnv
  paths : PathTools
  Parse : List Nat → Except String (Profile R)
  CheckValid : Profile R → Option String
  Scale : Profile R → Int → Profile R

/-- The method `plugin.Fetcher.Fetch(src, duration, timeout)`: a profile (possibly
nil) and its origin label, or an error. -/
abbrev Fetcher (R : Type) := String → Int → Int → Except String (Option (Profile R) × String)

/-- Embedding of `fetch`: over HTTP when `adjustURL` recognises a URL, from the
local file otherwise; the stream is then parsed.  The second component is the URL
actually fetched, empty for a local file. -/
def fetch {R : Type} (w : World R) (source : String) (duration timeout : Int) :
    Except String (Profile R × String) :=
  let adjusted := adjustURL w.url source duration timeout
  if adjusted.1 ≠ "" then
    match fetchURL w.httpGet adjusted.1 adjusted.2 with
    | .error err => .error err
    | .ok f =>
      match w.Parse f with
      | .error err => .error err
      | .ok p => .ok (p, adjusted.1)
  else
    match (profileProtoReader w.reader source).result with
    | .error err => .error err
    | .ok f =>
      match w.Parse f.readAll with
      | .error err => .error err
      | .ok p => .ok (p, "")

/-- Embedding of `grabProfile`; `fetcher` is `none` for a nil `plugin.Fetcher`. -/
def grabProfile {R : Type} (w : World R) (s : Source) (source : String) (scale : Int)
    (fetcher : Option (Fetcher R)) (obj : ObjTool) : Except String (GrabResult (Profile R)) :=
  let duration := wrap64 (s.Seconds * second)
  let timeout := wrap64 (s.Timeout * second)
  let overridden : Except String (Option (Profile R) × String) :=
    match fetcher with
    | some f => f source duration timeout
    | none => .ok (none, "")
  match overridden with
  | .error err => .error err
  | .ok (some p, src) =>
    match w.CheckValid p with
    | some err => .error err
    | none =>
      let located := locateBinaries w.paths obj (w.Scale p scale) s
      if src ≠ "" then
        .ok ⟨(collectMappingSources located src).2, (collectMappingSources located src).1, true⟩
      else .ok ⟨located, ∅, false⟩
  | .ok (none, _) =>
    match fetch w source duration timeout with
    | .error err => .error err
    | .ok (p, src) =>
      match w.CheckValid p with
      | some err => .error err
      | none =>
        let located := locateBinaries w.paths obj (w.Scale p scale) s
        if src ≠ "" then
          .ok ⟨(collectMappingSources located src).2, (collectMappingSources located src).1, true⟩
        else .ok ⟨located, ∅, false⟩

/-- The single-source fetcher as `concurrentGrab` calls it on a unit. -/
def grabUnit {R : Type} (w : World R) (s : Source) (fetcher : Option (Fetcher R))
    (obj : ObjTool) : Grabber (Profile R) :=
  fun u => grabProfile w s u.addr u.scale fetcher obj

/-! ## Registry lemmas -/

theorem lookup_appendSources (msrc : MappingSources) (m k : String) (s : List MapSrc) :
    (appendSources msrc m s).lookup k =
      if k = m then some ((msrc.lookup k).getD [] ++ s) else msrc.lookup k := by
  unfold appendSources
  by_cases h : k = m
  · subst h
    simp
  · simp [h, AList.lookup_insert_ne h]

theorem lookup_foldl_entries (k : String) :
    ∀ (l : List (Sigma fun _ : String => List MapSrc)) (acc : MappingSources),
      l.NodupKeys →
      (l.foldl (fun acc e => appendSources acc e.1 e.2) acc).lookup k =
        match l.dlookup k with
        | none => acc.lookup k
        | some s => some ((acc.lookup k).getD [] ++ s)
  | [], acc, _ => by simp
  | ⟨m, s⟩ :: l, acc, hnd => by
    have hnd2 := List.nodupKeys_cons.mp hnd
    rw [List.foldl_cons, lookup_foldl_entries k l _ hnd2.2]
    by_cases h : k = m
    · subst h
      have hnone : l.dlookup k = none := List.dlookup_eq_none.mpr hnd2.1
      simp [hnone, lookup_appendSources]
    · have h2 : m ≠ k := fun e => h e.symm
      rw [List.dlookup_cons_ne l ⟨m, s⟩ h]
      simp [lookup_appendSources, h]

theorem lookup_foldl_fragments (k : String) :
    ∀ (msrcs : List MappingSources) (acc : MappingSources),
      (msrcs.foldl
        (fun msrc ms => ms.entries.foldl (fun a e => appendSources a e.1 e.2) msrc)
        acc).lookup k =
        if fragmentsAt k msrcs = [] then acc.lookup k
        else some ((acc.lookup k).getD [] ++ (fragmentsAt k msrcs).flatten)
  | [], acc => by simp [fragmentsAt]
  | ms :: rest, acc => by
    rw [List.foldl_cons, lookup_foldl_fragments k rest]
    rw [lookup_foldl_entries k ms.entries acc ms.nodupKeys]
    have hl : ms.entries.dlookup k = ms.lookup k := rfl
    rw [hl]
    cases hms : ms.lookup k with
    | none =>
      have hcons : fragmentsAt k (ms :: rest) = fragmentsAt k rest := by
        simp [fragmentsAt, hms]
      rw [hcons]
    | some s =>
      have hcons : fragmentsAt k (ms :: rest) = s :: fragmentsAt k rest := by
        simp [fragmentsAt, hms]
      rw [hcons]
      by_cases hr : fragmentsAt k rest = []
      · simp [hr]
      · simp [hr, List.append_assoc]

theorem lookup_combineMappingSources (k : String) (msrcs : List MappingSources) :
    (combineMappingSources msrcs).lookup k =
      if fragmentsAt k msrcs = [] then none else some (fragmentsAt k msrcs).flatten := by
  unfold combineMappingSources
  rw [lookup_foldl_fragments]
  simp

theorem fragmentsAt_eq_nil (k : String) (msrcs : List MappingSources) :
    fragmentsAt k msrcs = [] ↔ ¬ ∃ ms ∈ msrcs, k ∈ ms := by
  unfold fragmentsAt
  rw [List.filterMap_eq_nil_iff]
  constructor
  · rintro h ⟨ms, hms, hk⟩
    exact (AList.lookup_eq_none.mp (h ms hms)) hk
  · intro h ms hms
    exact AList.lookup_eq_none.mpr (fun hk => h ⟨ms, hms, hk⟩)


/-! ## Orchestrator lemmas -/

theorem combineProfiles_eq {P : Type} (t : ProfileTools P) (profiles : List P)
    (msrcs : List MappingSources) :
    combineProfiles t profiles msrcs =
      match scaleMerge t profiles with
      | .error err => .error err
      | .ok p => .ok (p, combineMappingSources msrcs) := by
  unfold combineProfiles scaleMerge
  cases t.ScaleProfiles profiles with
  | error e => rfl
  | ok scaled => rfl

theorem goods_append {P : Type} (grab : Grabber P) (xs ys : List ProfileSource) :
    goods grab (xs ++ ys) = goods grab xs ++ goods grab ys := by
  simp [goods, List.filterMap_append]

theorem foldl_collectUnit {P : Type} (grab : Grabber P) :
    ∀ (sources : List ProfileSource) (acc : Collected P),
      (sources.map grab).foldl collectUnit acc =
        ⟨acc.save || (goods grab sources).any (fun g => g.remote),
          acc.profiles ++ (goods grab sources).map (fun g => g.p),
          acc.msrcs ++ (goods grab sources).map (fun g => g.msrc)⟩
  | [], acc => by simp [goods]
  | s :: rest, acc => by
    rw [List.map_cons, List.foldl_cons, foldl_collectUnit grab rest]
    cases hg : grab s with
    | error e => simp [goods, hg, collectUnit]
    | ok g => simp [goods, hg, collectUnit, Bool.or_assoc]

theorem concurrentGrab_eq {P : Type} (t : ProfileTools P) (grab : Grabber P)
    (sources : List ProfileSource) :
    concurrentGrab t grab sources =
      if (goods grab sources).length = 0 then .ok ⟨none, ∅, false, 0⟩
      else
        match scaleMerge t ((goods grab sources).map (fun g => g.p)) with
        | .error err => .error err
        | .ok p => .ok ⟨some p, combineMappingSources ((goods grab sources).map (fun g => g.msrc)),
            (goods grab sources).any (fun g => g.remote), (goods grab sources).length⟩ := by
  unfold concurrentGrab
  rw [foldl_collectUnit]
  simp only [List.nil_append, Bool.false_or, List.length_map, combineProfiles_eq]
  by_cases hl : (goods grab sources).length = 0
  · simp [hl]
  · simp only [hl, if_false]
    cases scaleMerge t ((goods grab sources).map (fun g => g.p)) with
    | error e => rfl
    | ok p => rfl

theorem lookup_combine_pair (a b : MappingSources) (k : String) (A B : List (List MapSrc))
    (ha : a.lookup k = if A = [] then none else some A.flatten)
    (hb : b.lookup k = if B = [] then none else some B.flatten) :
    (combineMappingSources [a, b]).lookup k =
      if A ++ B = [] then none else some (A ++ B).flatten := by
  rw [lookup_combineMappingSources]
  by_cases hA : A = [] <;> by_cases hB : B = [] <;>
    simp [fragmentsAt, ha, hb, hA, hB]

theorem AggInv_init {P : Type} (t : ProfileTools P) :
    AggInv t (⟨none, ∅, false, 0⟩ : Grabbed P) [] where
  count := rfl
  save := rfl
  nonnil := by simp
  lookup := by intro k; simp [fragmentsAt]
  profile := by intro m _ _ h; exact absurd rfl h

theorem AggInv_first {P : Type} (t : ProfileTools P) (g : List (GrabResult P))
    (hg : g ≠ []) (p : P) (hp : scaleMerge t (g.map (fun x => x.p)) = .ok p) :
    AggInv t ⟨some p, combineMappingSources (g.map (fun x => x.msrc)),
      g.any (fun x => x.remote), g.length⟩ g where
  count := rfl
  save := rfl
  nonnil := by simp [hg]
  lookup := by intro k; exact lookup_combineMappingSources k _
  profile := by
    intro m hm _ _
    have h := hm (g.map (fun x => x.p)) (by simpa using hg)
    rw [hp] at h
    injection h with h
    rw [h]

theorem AggInv_combine {P : Type} (t : ProfileTools P) (st : Grabbed P)
    (done g : List (GrabResult P)) (inv : AggInv t st done) (hg : g ≠ [])
    (p chunkP p2 : P) (hst : st.p = some p)
    (hchunk : scaleMerge t (g.map (fun x => x.p)) = .ok chunkP)
    (hp2 : scaleMerge t [p, chunkP] = .ok p2) :
    AggInv t ⟨some p2,
      combineMappingSources [st.msrc, combineMappingSources (g.map (fun x => x.msrc))],
      if g.any (fun x => x.remote) then true else st.save, st.count + g.length⟩
      (done ++ g) where
  count := by simp [inv.count]
  save := by
    simp only [inv.save, List.any_append]
    cases List.any done (fun g => g.remote) <;> cases List.any g (fun x => x.remote) <;> rfl
  nonnil := by simp [hg]
  lookup := by
    intro k
    have h := lookup_combine_pair st.msrc (combineMappingSources (g.map (fun x => x.msrc))) k
      _ _ (inv.lookup k) (lookup_combineMappingSources k _)
    rw [h]
    simp [fragmentsAt, List.filterMap_append]
  profile := by
    intro m hm hassoc _
    have hdone : done ≠ [] := by
      intro hd
      have := inv.nonnil.mpr hd
      rw [hst] at this
      cases this
    have h1 := inv.profile m hm hassoc hdone
    rw [hst] at h1
    injection h1 with h1
    have h2 := hm (g.map (fun x => x.p)) (by simpa using hg)
    rw [hchunk] at h2
    injection h2 with h2
    have h3 := hm [p, chunkP] (by simp)
    rw [hp2] at h3
    injection h3 with h3
    rw [h3, h1, h2, List.map_append]
    rw [hassoc _ _ (by simpa using hdone) (by simpa using hg)]


theorem chunk_slice (chunkSize start : Nat) (sources : List ProfileSource) :
    (sources.drop start).take
        ((if start + chunkSize > sources.length then sources.length
          else start + chunkSize) - start) =
      (sources.drop start).take chunkSize := by
  by_cases h : start + chunkSize > sources.length
  · simp only [h, if_true]
    rw [List.take_of_length_le (by simp), List.take_of_length_le (by simp; omega)]
  · simp only [h, if_false]
    congr 1
    omega

theorem drop_split (chunkSize start : Nat) (sources : List ProfileSource) :
    sources.drop start =
      (sources.drop start).take chunkSize ++ sources.drop (start + chunkSize) := by
  have h := (List.take_append_drop chunkSize (sources.drop start)).symm
  rw [List.drop_drop] at h
  exact h

theorem chunkedLoop_inv {P : Type} (t : ProfileTools P) (grab : Grabber P)
    (chunkSize : Nat) (sources : List ProfileSource) (hc : 0 < chunkSize)
    (hM : ∀ xs : List P, xs ≠ [] → ∃ p, scaleMerge t xs = .ok p) :
    ∀ (fuel start : Nat) (st : Grabbed P) (done : List (GrabResult P)),
      sources.length - start < fuel → AggInv t st done →
      ∃ st2, chunkedLoop t grab chunkSize sources fuel start st = some (.ok st2) ∧
        AggInv t st2 (done ++ goods grab (sources.drop start))
  | 0, _, _, _, hf, _ => absurd hf (Nat.not_lt_zero _)
  | fuel + 1, start, st, done, hf, inv => by
    unfold chunkedLoop
    by_cases hlt : start < sources.length
    · simp only [hlt, if_true]
      rw [chunk_slice, concurrentGrab_eq]
      have hfuel : sources.length - (start + chunkSize) < fuel := by omega
      have hsplit := drop_split chunkSize start sources
      have hgoods : goods grab (sources.drop start) =
          goods grab ((sources.drop start).take chunkSize) ++
            goods grab (sources.drop (start + chunkSize)) := by
        rw [← goods_append, ← hsplit]
      generalize hg : goods grab ((sources.drop start).take chunkSize) = g at hgoods
      by_cases hl : g.length = 0
      · have hnil : g = [] := List.length_eq_zero.mp hl
        simp only [hl, if_true]
        obtain ⟨st2, h1, h2⟩ :=
          chunkedLoop_inv t grab chunkSize sources hc hM fuel (start + chunkSize) st done
            hfuel inv
        refine ⟨st2, h1, ?_⟩
        rw [hgoods, hnil, List.nil_append]
        exact h2
      · have hne : g ≠ [] := fun e => hl (by rw [e]; rfl)
        simp only [hl, if_false]
        obtain ⟨chunkP, hchunk⟩ := hM (g.map (fun x => x.p)) (by simpa using hne)
        rw [hchunk]
        cases hst : st.p with
        | none =>
          have hdone : done = [] := inv.nonnil.mp hst
          obtain ⟨st2, h1, h2⟩ :=
            chunkedLoop_inv t grab chunkSize sources hc hM fuel (start + chunkSize) _ g
              hfuel (AggInv_first t g hne chunkP hchunk)
          refine ⟨st2, h1, ?_⟩
          rw [hgoods, hdone, List.nil_append]
          exact h2
        | some p =>
          obtain ⟨p2, hp2⟩ := hM [p, chunkP] (by simp)
          simp only [combineProfiles_eq, hp2]
          obtain ⟨st2, h1, h2⟩ :=
            chunkedLoop_inv t grab chunkSize sources hc hM fuel (start + chunkSize) _
              (done ++ g) hfuel (AggInv_combine t st done g inv hne p chunkP p2 hst hchunk hp2)
          refine ⟨st2, h1, ?_⟩
          rw [hgoods, ← List.append_assoc]
          exact h2
    · simp only [hlt, if_false]
      refine ⟨st, rfl, ?_⟩
      rw [List.drop_of_length_le (by omega)]
      simpa [goods] using inv

theorem chunkedGrabWith_inv {P : Type} (t : ProfileTools P) (grab : Grabber P)
    (chunkSize : Nat) (sources : List ProfileSource) (hc : 0 < chunkSize)
    (hM : ∀ xs : List P, xs ≠ [] → ∃ p, scaleMerge t xs = .ok p) :
    ∃ st, chunkedGrabWith t grab chunkSize sources = some (.ok st) ∧
      AggInv t st (goods grab sources) := by
  have h := chunkedLoop_inv t grab chunkSize sources hc hM (sources.length + 1) 0
    ⟨none, ∅, false, 0⟩ [] (by omega) (AggInv_init t)
  simpa [chunkedGrabWith] using h


theorem chunkedLoop_nothing {P : Type} (t : ProfileTools P) (grab : Grabber P)
    (chunkSize : Nat) (sources : List ProfileSource) (hc : 0 < chunkSize) :
    ∀ (fuel start : Nat) (st : Grabbed P),
      sources.length - start < fuel → goods grab (sources.drop start) = [] →
      chunkedLoop t grab chunkSize sources fuel start st = some (.ok st)
  | 0, _, _, hf, _ => absurd hf (Nat.not_lt_zero _)
  | fuel + 1, start, st, hf, hnone => by
    unfold chunkedLoop
    by_cases hlt : start < sources.length
    · simp only [hlt, if_true]
      rw [chunk_slice, concurrentGrab_eq]
      have hsplit := drop_split chunkSize start sources
      rw [hsplit, goods_append, List.append_eq_nil] at hnone
      simp only [hnone.1, List.length_nil, if_true]
      exact chunkedLoop_nothing t grab chunkSize sources hc fuel (start + chunkSize) st
        (by omega) hnone.2
    · simp only [hlt, if_false]

theorem goods_eq_nil_of_all_fail {P : Type} (grab : Grabber P) (sources : List ProfileSource)
    (h : ∀ u ∈ sources, ∃ err, grab u = .error err) : goods grab sources = [] := by
  unfold goods
  rw [List.filterMap_eq_nil_iff]
  intro u hu
  obtain ⟨err, he⟩ := h u hu
  simp [he]

theorem goods_length {P : Type} (grab : Grabber P) :
    ∀ sources : List ProfileSource,
      (goods grab sources).length = (sources.filter (fetched grab)).length
  | [] => rfl
  | u :: rest => by
    have ih := goods_length grab rest
    cases hg : grab u with
    | error e => simp [goods, fetched, hg] at ih ⊢; exact ih
    | ok g => simp [goods, fetched, hg] at ih ⊢; exact ih

theorem goods_ne_nil_of_mem {P : Type} (grab : Grabber P) (sources : List ProfileSource)
    (u : ProfileSource) (hu : u ∈ sources) (g : GrabResult P) (hg : grab u = .ok g) :
    goods grab sources ≠ [] := by
  intro h
  unfold goods at h
  rw [List.filterMap_eq_nil_iff] at h
  have := h u hu
  simp [hg] at this


/-! ## Resolver lemmas -/

theorem wrap64_of_range (x : Int) (h1 : -(2 ^ 63) ≤ x) (h2 : x < 2 ^ 63) : wrap64 x = x := by
  unfold wrap64
  rw [Int.emod_eq_of_lt (by omega) (by omega)]
  omega

theorem parseInt32_range (s : String) (v : Int) (h : parseInt32 s = some v) :
    -(2 ^ 31) ≤ v ∧ v < 2 ^ 31 := by
  unfold parseInt32 at h
  split at h
  · cases h
  all_goals
    cases hd : parseDigits _ with
    | none => rw [hd] at h; cases h
    | some un =>
      rw [hd] at h
      simp only [Option.bind] at h
      split at h
      · cases h
      · injection h with h
        subst h
        constructor <;> push_cast <;> omega

theorem adjustDuration_effective (values : Values) (duration : Int) :
    (0 < effectiveDuration values duration →
        adjustDuration values duration = effectiveDuration values duration) ∧
      (effectiveDuration values duration ≤ 0 → adjustDuration values duration ≤ 0) := by
  unfold adjustDuration effectiveDuration
  by_cases hd : duration > 0
  · rw [if_pos hd, if_pos hd]
    exact ⟨fun _ => rfl, fun h => absurd hd (by omega)⟩
  · rw [if_neg hd, if_neg hd]
    have hd2 : duration ≤ 0 := not_lt.mp hd
    by_cases hg : values.Get "seconds" = ""
    · have hp : parseInt32 "" = none := rfl
      rw [hg, hp, if_neg (fun h => h rfl)]
      exact ⟨fun h => absurd h (by decide), fun _ => hd2⟩
    · rw [if_pos hg]
      cases hp : parseInt32 (values.Get "seconds") with
      | none => exact ⟨fun h => absurd h (by decide), fun _ => hd2⟩
      | some us =>
        have hr := parseInt32_range _ us hp
        have hw : wrap64 (us * second) = us * second := by
          apply wrap64_of_range <;> unfold second <;> omega
        show (0 < us * second → wrap64 (us * second) = us * second) ∧
          (us * second ≤ 0 → wrap64 (us * second) ≤ 0)
        rw [hw]
        exact ⟨fun _ => rfl, fun h => h⟩

theorem adjustURL_snd (u : URLTools) (source : String) (duration timeout : Int) (x : URL)
    (hx : resolveURL u source = some x) :
    (adjustURL u source duration timeout).2 =
      adjustTimeout (adjustDuration (u.Query x) duration) timeout := by
  unfold adjustURL
  rw [hx]


/-! ## Sniffer lemmas -/

theorem perfHeader_length : perfHeader.length = 8 := by decide

theorem perfHeader_getLast : perfHeader.drop 7 = [50] := by decide

/-- The header buffer after the read equals the marker exactly when the first
eight bytes of the content do. -/
theorem header_eq_iff (content : List Nat) :
    (content.take 8 ++ (List.replicate 8 0).drop (content.take 8).length = perfHeader) ↔
      content.take 8 = perfHeader := by
  by_cases hlen : 8 ≤ content.length
  · have h8 : (content.take 8).length = 8 := by simp [hlen]
    rw [h8]
    simp
  · have hlt : (content.take 8).length < 8 := by
      rw [List.length_take]; omega
    constructor
    · intro h
      exfalso
      have h7 := congrArg (fun l => l.drop 7) h
      simp only [perfHeader_getLast] at h7
      have hz : ∀ x ∈ (content.take 8 ++ (List.replicate 8 0).drop (content.take 8).length).drop 7,
          x = 0 := by
        intro x hx
        rw [List.drop_append_eq_append_drop] at hx
        rw [List.drop_of_length_le (by omega)] at hx
        simp only [List.nil_append] at hx
        have hx2 := List.mem_of_mem_drop (List.mem_of_mem_drop hx)
        exact (List.mem_replicate.mp hx2).2
      rw [h7] at hz
      have := hz 50 (by simp)
      omega
    · intro h
      exfalso
      rw [h, perfHeader_length] at hlt
      omega

theorem profileProtoReader_eq (e : ReaderEnv) (path : String) (d : FileData)
    (hopen : e.Open path = .ok d) (hread : d.readFault = none) (hseek : d.seekFault = none) :
    profileProtoReader e path =
      if d.content.take 8 = perfHeader then
        match convertPerfData e path with
        | .error convertErr => ⟨[path], .error convertErr⟩
        | .ok profileFile => ⟨[path], openFile e profileFile⟩
      else ⟨[], .ok ⟨d, 0⟩⟩ := by
  have hiff := header_eq_iff d.content
  unfold profileProtoReader openFile
  simp only [hopen, File.Read, hread, File.SeekStart, hseek, perfHeader_length,
    List.length_replicate, List.drop_zero]
  by_cases hempty : (d.content.take 8).length = 0 ∧ 8 ≠ 0
  · have hnil : d.content.take 8 = [] := List.length_eq_zero.mp hempty.1
    have hne : ¬ ([] : List Nat) = perfHeader := by decide
    have hz : ¬ List.replicate 8 0 = perfHeader := by decide
    simp only [hempty, hnil, hseek, hne, hz, and_self, if_true, if_false, ne_eq,
      not_false_eq_true, OfNat.ofNat_ne_zero, List.length_nil]
  · simp only [hempty, if_false, hseek]
    by_cases hh : d.content.take 8 = perfHeader
    · rw [if_pos (hiff.mpr hh), if_pos hh]
    · rw [if_neg (fun h => hh (hiff.mp h)), if_neg hh]


/-! ## Locator lemmas -/

/-- The acceptance test of the innermost loop. -/
theorem tryNames_eq_find (obj : ObjTool) (m : Mapping) :
    ∀ names : List String,
      tryNames obj m names =
        names.find? (fun name =>
          match obj name m.Start m.Limit m.Offset with
          | .ok f => !(decide (m.BuildID ≠ "" ∧ m.BuildID ≠ f.BuildID))
          | .error _ => false)
  | [] => rfl
  | name :: rest => by
    unfold tryNames
    rw [List.find?_cons, tryNames_eq_find obj m rest]
    cases hobj : obj name m.Start m.Limit m.Offset with
    | error err => simp
    | ok f =>
      by_cases hc : m.BuildID ≠ "" ∧ m.BuildID ≠ f.BuildID
      · simp [hc]
      · simp [hc]

theorem tryNames_append (obj : ObjTool) (m : Mapping) (xs ys : List String) :
    tryNames obj m (xs ++ ys) =
      match tryNames obj m xs with
      | some name => some name
      | none => tryNames obj m ys := by
  rw [tryNames_eq_find, tryNames_eq_find, tryNames_eq_find, List.find?_append]
  cases List.find? _ xs <;> rfl

theorem tryPaths_eq_tryNames (e : PathTools) (obj : ObjTool) (m : Mapping) (baseName : String) :
    ∀ paths : List String,
      tryPaths e obj m baseName paths = tryNames obj m (candidates e m baseName paths)
  | [] => rfl
  | path :: rest => by
    unfold tryPaths candidates
    rw [List.flatMap_cons, tryNames_append, tryPaths_eq_tryNames e obj m baseName rest]
    rfl

theorem tryNames_some (obj : ObjTool) (m : Mapping) (names : List String) (name : String)
    (h : tryNames obj m names = some name) :
    name ∈ names ∧ ∃ f, obj name m.Start m.Limit m.Offset = .ok f ∧
      ¬ (m.BuildID ≠ "" ∧ m.BuildID ≠ f.BuildID) := by
  rw [tryNames_eq_find] at h
  refine ⟨List.mem_of_find?_eq_some h, ?_⟩
  have hp := List.find?_some h
  cases hobj : obj name m.Start m.Limit m.Offset with
  | error err => simp [hobj] at hp
  | ok f =>
    refine ⟨f, rfl, ?_⟩
    simp only [hobj, Bool.not_eq_true', decide_eq_false_iff_not] at hp
    exact hp

theorem tryNames_none (obj : ObjTool) (m : Mapping) (names : List String)
    (hb : m.BuildID ≠ "")
    (h : ∀ name ∈ names, ∀ f, obj name m.Start m.Limit m.Offset = .ok f →
      f.BuildID ≠ m.BuildID) :
    tryNames obj m names = none := by
  rw [tryNames_eq_find, List.find?_eq_none]
  intro name hname
  cases hobj : obj name m.Start m.Limit m.Offset with
  | error err => simp
  | ok f =>
    have := h name hname f hobj
    simp only [hb, ne_eq, not_false_eq_true, true_and, Bool.not_eq_true', decide_eq_false_iff_not,
      not_not, Bool.not_eq_true, Bool.not_eq_false', decide_eq_true_eq]
    exact fun e => this (Eq.symm e)

theorem tryNames_first_open (obj : ObjTool) (m : Mapping) (c : String) (f : ObjFile)
    (hobj : obj c m.Start m.Limit m.Offset = .ok f) (hid : f.BuildID = m.BuildID) :
    ∀ names : List String, names.find? (opens obj m) = some c → tryNames obj m names = some c
  | [], h => by simp at h
  | name :: rest, h => by
    unfold tryNames
    rw [List.find?_cons] at h
    cases hn : obj name m.Start m.Limit m.Offset with
    | error err =>
      have hop : opens obj m name = false := by simp [opens, hn]
      rw [hop] at h
      exact tryNames_first_open obj m c f hobj hid rest h
    | ok g =>
      have hop : opens obj m name = true := by simp [opens, hn]
      rw [hop] at h
      injection h with h
      subst h
      rw [hobj] at hn
      injection hn with hn
      subst hn
      simp [hid]

theorem tryNames_congr (obj : ObjTool) (m n : Mapping) (h1 : m.Start = n.Start)
    (h2 : m.Limit = n.Limit) (h3 : m.Offset = n.Offset) (h4 : m.BuildID = n.BuildID) :
    ∀ names : List String, tryNames obj m names = tryNames obj n names
  | [] => rfl
  | name :: rest => by
    unfold tryNames
    rw [tryNames_congr obj m n h1 h2 h3 h4 rest, h1, h2, h3, h4]

theorem candidates_congr (e : PathTools) (m n : Mapping) (baseName : String)
    (paths : List String) (h4 : m.BuildID = n.BuildID) :
    candidates e m baseName paths = candidates e n baseName paths := by
  unfold candidates fileNames
  rw [h4]

theorem locateFrom_getElem (e : PathTools) (obj : ObjTool) (s : Source) :
    ∀ (l : List Mapping) (j i : Nat),
      (locateFrom e obj s j l)[i]? = (l[i]?).map (locateMapping e obj s (j + i))
  | [], _, _ => by simp [locateFrom]
  | m :: rest, j, 0 => by simp [locateFrom]
  | m :: rest, j, i + 1 => by
    simp only [locateFrom, List.getElem?_cons_succ]
    rw [locateFrom_getElem e obj s rest (j + 1) i]
    have hji : j + 1 + i = j + (i + 1) := by omega
    rw [hji]

theorem locateBinaries_getElem {R : Type} (e : PathTools) (obj : ObjTool) (p : Profile R)
    (s : Source) (i : Nat) :
    (locateBinaries e obj p s).Mapping[i]? = (p.Mapping[i]?).map (locateMapping e obj s i) := by
  unfold locateBinaries
  simp only [locateFrom_getElem, Nat.zero_add]

theorem overrideMapping_fields (s : Source) (i : Nat) (m : Mapping) :
    (overrideMapping s i m).Start = m.Start ∧ (overrideMapping s i m).Limit = m.Limit ∧
      (overrideMapping s i m).Offset = m.Offset := by
  unfold overrideMapping
  by_cases hi : i = 0 <;> by_cases h1 : s.ExecName = "" <;> by_cases h2 : s.BuildID = "" <;>
    simp [hi, h1, h2]

/-- Applying the override step to an already overridden mapping whose file was
rewritten: an executable-name override on the first mapping restores the override
name, otherwise nothing changes. -/
theorem overrideMapping_again (s : Source) (i : Nat) (m : Mapping) (name : String) :
    overrideMapping s i { overrideMapping s i m with File := name } =
      if i = 0 ∧ s.ExecName ≠ "" then overrideMapping s i m
      else { overrideMapping s i m with File := name } := by
  unfold overrideMapping
  by_cases hi : i = 0 <;> by_cases h1 : s.ExecName = "" <;> by_cases h2 : s.BuildID = "" <;>
    simp [hi, h1, h2]

theorem overrideMapping_none (s : Source) (i : Nat) (m : Mapping)
    (h : i ≠ 0 ∨ (s.ExecName = "" ∧ s.BuildID = "")) : overrideMapping s i m = m := by
  unfold overrideMapping
  rcases h with h | ⟨h1, h2⟩
  · simp [h]
  · simp [h1, h2]


theorem locateSearch_eq (e : PathTools) (obj : ObjTool) (s : Source) (i : Nat) (m0 : Mapping) :
    locateSearch e obj s i m0 =
      tryNames obj (overrideMapping s i m0) (candidatesOf e (overrideMapping s i m0)) := by
  unfold locateSearch candidatesOf
  rw [tryPaths_eq_tryNames]

theorem locateSearch_rewritten (e : PathTools) (obj : ObjTool) (s : Source) (i : Nat)
    (m0 : Mapping) (name : String)
    (hbase : (i = 0 ∧ s.ExecName ≠ "") ∨
      searchBase e { overrideMapping s i m0 with File := name } =
        searchBase e (overrideMapping s i m0)) :
    locateSearch e obj s i { overrideMapping s i m0 with File := name } =
      locateSearch e obj s i m0 := by
  rw [locateSearch_eq, locateSearch_eq, overrideMapping_again]
  by_cases hov : i = 0 ∧ s.ExecName ≠ ""
  · rw [if_pos hov]
  · rw [if_neg hov]
    rcases hbase with h | h
    · exact absurd h hov
    · unfold candidatesOf
      have hc := candidates_congr e { overrideMapping s i m0 with File := name }
        (overrideMapping s i m0) (searchBase e (overrideMapping s i m0))
        (e.SplitList (searchPath e)) rfl
      rw [h, hc]
      exact tryNames_congr obj { overrideMapping s i m0 with File := name }
        (overrideMapping s i m0) rfl rfl rfl rfl _


/-! ## Mapping-source lemmas -/

theorem collectStep_fst (source : String) (ms : MappingSources) (m : Mapping) :
    (collectStep source ms m).1 = appendSources ms (sourceKey source m) [⟨source, m.Start⟩] := by
  have hk : (if (if m.BuildID = "" then m.File else m.BuildID) = "" then source
      else (if m.BuildID = "" then m.File else m.BuildID)) = sourceKey source m := by
    unfold sourceKey
    by_cases hb : m.BuildID = "" <;> by_cases hf : m.File = "" <;> simp [hb, hf]
  unfold collectStep appendSources
  simp only []
  rw [hk]

theorem lookup_collectFrom (source k : String) :
    ∀ (l : List Mapping) (ms : MappingSources),
      (collectFrom source ms l).1.lookup k =
        if (l.filter (fun m => sourceKey source m = k)) = [] then ms.lookup k
        else some ((ms.lookup k).getD [] ++
          (l.filter (fun m => sourceKey source m = k)).map (fun m => ⟨source, m.Start⟩))
  | [], ms => by simp [collectFrom]
  | m :: rest, ms => by
    simp only [collectFrom]
    rw [lookup_collectFrom source k rest, collectStep_fst, lookup_appendSources]
    by_cases hk : sourceKey source m = k
    · have hk2 : k = sourceKey source m := hk.symm
      rw [List.filter_cons_of_pos (by simpa using hk)]
      rw [if_pos hk2]
      by_cases hr : rest.filter (fun m => sourceKey source m = k) = []
      · simp [hr]
      · simp [hr]
    · have hk2 : ¬ k = sourceKey source m := fun h => hk h.symm
      rw [List.filter_cons_of_neg (by simpa using hk)]
      rw [if_neg hk2]

theorem lenSum_kerase (k : String) :
    ∀ l : List (Sigma fun _ : String => List MapSrc),
      ((l.kerase k).map (fun e => e.2.length)).sum + ((l.dlookup k).getD []).length =
        (l.map (fun e => e.2.length)).sum
  | [] => by simp
  | ⟨a, b⟩ :: l => by
    by_cases h : a = k
    · subst h
      simp [List.kerase_cons_eq, List.dlookup_cons_eq]
      omega
    · have h2 : k ≠ a := fun e => h e.symm
      rw [List.kerase_cons_ne h2, List.dlookup_cons_ne l ⟨a, b⟩ h2]
      have ih := lenSum_kerase k l
      simp only [List.map_cons, List.sum_cons]
      omega

theorem pairCount_appendSources (ms : MappingSources) (k : String) (src : MapSrc) :
    pairCount (appendSources ms k [src]) = pairCount ms + 1 := by
  unfold pairCount appendSources
  rw [AList.insert_entries]
  have h := lenSum_kerase k ms.entries
  have hl : ms.entries.dlookup k = ms.lookup k := rfl
  rw [hl] at h
  simp only [List.map_cons, List.sum_cons, List.length_append, List.length_singleton]
  omega

theorem pairCount_collectFrom (source : String) :
    ∀ (l : List Mapping) (ms : MappingSources),
      pairCount (collectFrom source ms l).1 = pairCount ms + l.length
  | [], ms => by simp [collectFrom]
  | m :: rest, ms => by
    simp only [collectFrom]
    rw [pairCount_collectFrom source rest, collectStep_fst, pairCount_appendSources]
    simp only [List.length_cons]
    omega

theorem collectFrom_snd (source : String) :
    ∀ (l : List Mapping) (ms : MappingSources),
      (collectFrom source ms l).2 = l.map (fun m => (collectStep source ∅ m).2)
  | [], ms => rfl
  | m :: rest, ms => by
    simp only [collectFrom, List.map_cons]
    rw [collectFrom_snd source rest]
    rfl

theorem collectStep_snd_key (source : String) (m : Mapping) :
    (collectStep source ∅ m).2.Start = m.Start ∧
      (collectStep source ∅ m).2.BuildID = m.BuildID ∧
      specKey (collectStep source ∅ m).2 = sourceKey source m := by
  unfold collectStep specKey sourceKey
  by_cases hb : m.BuildID = "" <;> by_cases hf : m.File = "" <;> simp [hb, hf]


/-! ## Single-source fetcher lemmas -/

/-- A fetched unit is remote exactly when it carries an origin label, and then
its registry fragment and profile are those `collectMappingSources` builds for
that non-empty label; a local unit has no fragment. -/
theorem grabProfile_fragment {R : Type} (w : World R) (s : Source) (source : String)
    (scale : Int) (fetcher : Option (Fetcher R)) (obj : ObjTool) (g : GrabResult (Profile R))
    (h : grabProfile w s source scale fetcher obj = .ok g) :
    (g.remote = true → ∃ p src, src ≠ "" ∧ g.msrc = (collectMappingSources p src).1 ∧
        g.p = (collectMappingSources p src).2) ∧
      (g.remote = false → g.msrc = ∅) := by
  unfold grabProfile at h
  simp only [] at h
  split at h
  · cases h
  · split at h
    · cases h
    · split at h
      · rename_i hsrc
        injection h with h
        subst h
        exact ⟨fun _ => ⟨_, _, hsrc, rfl, rfl⟩, fun hh => Bool.noConfusion hh⟩
      · injection h with h
        subst h
        exact ⟨fun hh => Bool.noConfusion hh, fun _ => rfl⟩
  · split at h
    · cases h
    · split at h
      · cases h
      · split at h
        · rename_i hsrc
          injection h with h
          subst h
          exact ⟨fun _ => ⟨_, _, hsrc, rfl, rfl⟩, fun hh => Bool.noConfusion hh⟩
        · injection h with h
          subst h
          exact ⟨fun hh => Bool.noConfusion hh, fun _ => rfl⟩


/-! ## Claims about the orchestrator and the merge coordinator -/

/-- C1: when the temp-directory setup succeeds and every fetch unit built from
the descriptor (targets and baselines, possibly none at all) fails in its
single-source fetch, `fetchProfiles` terminates with the error
`failed to fetch any profiles`; no profile is returned. -/
theorem fetchProfiles_all_fail {P : Type} (e : TmpEnv) (t : ProfileTools P) (o : Options P)
    (grab : Grabber P) (s : Source) (dir : String) (htmp : setTmpDir e = .ok dir)
    (hfail : ∀ u ∈ fetchUnits s, ∃ err, grab u = .error err) :
    fetchProfiles e t o grab s = some (.error "failed to fetch any profiles") := by
  have hnone : goods grab ((fetchUnits s).drop 0) = [] := by
    rw [List.drop_zero]
    exact goods_eq_nil_of_all_fail grab _ hfail
  have h := chunkedLoop_nothing t grab 64 (fetchUnits s) (by decide)
    ((fetchUnits s).length + 1) 0 ⟨none, ∅, false, 0⟩ (by omega) hnone
  unfold fetchProfiles
  rw [htmp]
  simp only [chunkedGrab, chunkedGrabWith, h]
  rfl

theorem fetchProfiles_all_fail_witness :
    setTmpDir sampleTmpEnv = .ok "/tmp" ∧
      fetchProfiles sampleTmpEnv sumTools sampleOptions sampleGrab failingSource =
        some (.error "failed to fetch any profiles") :=
  ⟨rfl,
    fetchProfiles_all_fail sampleTmpEnv sumTools sampleOptions sampleGrab failingSource "/tmp"
      rfl
      (by
        intro u hu
        simp only [fetchUnits, failingSource, List.map_cons, List.map_nil, List.cons_append,
          List.nil_append, List.mem_cons, List.mem_singleton, List.not_mem_nil, or_false] at hu
        rcases hu with h | h <;> subst h <;> exact ⟨_, rfl⟩)⟩

/-- C2: for a non-empty list of units of which at least one is fetched, and a
scale/merge collaborator that never fails on a non-empty list, `chunkedGrab`
terminates without error, with a non-nil aggregate and a count that is at least
one and is exactly the number of units whose fetch did not error. -/
theorem chunkedGrab_some_succeed {P : Type} (t : ProfileTools P) (grab : Grabber P)
    (sources : List ProfileSource) (_hne : sources ≠ [])
    (hgood : ∃ u ∈ sources, ∃ g, grab u = .ok g)
    (hM : ∀ xs : List P, xs ≠ [] → ∃ p, scaleMerge t xs = .ok p) :
    ∃ st p, chunkedGrab t grab sources = some (.ok st) ∧ st.p = some p ∧
      1 ≤ st.count ∧ st.count = (sources.filter (fetched grab)).length := by
  obtain ⟨st, hst, inv⟩ := chunkedGrabWith_inv t grab 64 sources (by decide) hM
  obtain ⟨u, hu, g, hg⟩ := hgood
  have hgoods : goods grab sources ≠ [] := goods_ne_nil_of_mem grab sources u hu g hg
  have hp : st.p ≠ none := fun h => hgoods (inv.nonnil.mp h)
  obtain ⟨p, hp2⟩ := Option.ne_none_iff_exists'.mp hp
  refine ⟨st, p, hst, hp2, ?_, ?_⟩
  · rw [inv.count]
    exact List.length_pos.mpr hgoods
  · rw [inv.count, goods_length]

theorem chunkedGrab_some_succeed_witness :
    mixedUnits ≠ [] ∧
      ∃ st p, chunkedGrab sumTools sampleGrab mixedUnits = some (.ok st) ∧ st.p = some p ∧
        1 ≤ st.count ∧ st.count = (mixedUnits.filter (fetched sampleGrab)).length :=
  ⟨by decide,
    chunkedGrab_some_succeed sumTools sampleGrab mixedUnits (by decide)
      ⟨⟨"good", 1⟩, by decide, ⟨1, ∅, false⟩, rfl⟩
      (by
        intro xs hxs
        exact ⟨xs.sum, by simp [scaleMerge, sumTools, hxs]⟩)⟩

/-- C3: with fixed per-unit outcomes and a scale/merge collaborator that never
fails on a non-empty list, `chunkedGrab` (batch size 64) and the same function
with any other positive batch size `n` both terminate without error and agree on
the success count, on the save flag, on whether the aggregate is nil and on the
registry (every key looks up the same sequence).  The aggregates are equal
whenever scale-and-merge is associative (merging a concatenation is merging the
two partial merges) and merging a single profile returns it. -/
theorem chunkedGrab_batch_size_irrelevant {P : Type} (t : ProfileTools P) (grab : Grabber P)
    (sources : List ProfileSource) (n : Nat) (hn : 0 < n)
    (hM : ∀ xs : List P, xs ≠ [] → ∃ p, scaleMerge t xs = .ok p) :
    ∃ a b, chunkedGrab t grab sources = some (.ok a) ∧
      chunkedGrabWith t grab n sources = some (.ok b) ∧
      a.count = b.count ∧ a.save = b.save ∧ (a.p = none ↔ b.p = none) ∧
      (∀ k, a.msrc.lookup k = b.msrc.lookup k) ∧
      (∀ m : List P → P,
        (∀ xs, xs ≠ [] → scaleMerge t xs = .ok (m xs)) →
        (∀ xs ys, xs ≠ [] → ys ≠ [] → m (xs ++ ys) = m [m xs, m ys]) →
        (∀ x, m [x] = x) → a.p = b.p) := by
  obtain ⟨a, ha, inva⟩ := chunkedGrabWith_inv t grab 64 sources (by decide) hM
  obtain ⟨b, hb, invb⟩ := chunkedGrabWith_inv t grab n sources hn hM
  refine ⟨a, b, ha, hb, ?_, ?_, ?_, ?_, ?_⟩
  · rw [inva.count, invb.count]
  · rw [inva.save, invb.save]
  · rw [inva.nonnil, invb.nonnil]
  · intro k
    rw [inva.lookup, invb.lookup]
  · intro m hm hassoc _
    by_cases hg : goods grab sources = []
    · rw [inva.nonnil.mpr hg, invb.nonnil.mpr hg]
    · rw [inva.profile m hm hassoc hg, invb.profile m hm hassoc hg]

theorem chunkedGrab_batch_size_irrelevant_witness :
    ∃ a b, chunkedGrab sumTools sampleGrab mixedUnits = some (.ok a) ∧
      chunkedGrabWith sumTools sampleGrab 1 mixedUnits = some (.ok b) ∧
      a.count = b.count ∧ a.save = b.save ∧ (a.p = none ↔ b.p = none) ∧
      (∀ k, a.msrc.lookup k = b.msrc.lookup k) ∧
      (∀ m : List Nat → Nat,
        (∀ xs, xs ≠ [] → scaleMerge sumTools xs = .ok (m xs)) →
        (∀ xs ys, xs ≠ [] → ys ≠ [] → m (xs ++ ys) = m [m xs, m ys]) →
        (∀ x, m [x] = x) → a.p = b.p) :=
  chunkedGrab_batch_size_irrelevant sumTools sampleGrab mixedUnits 1 (by decide)
    (by
      intro xs hxs
      exact ⟨xs.sum, by simp [scaleMerge, sumTools, hxs]⟩)

/-- C4: when scaling and merging succeed, the registry `combineProfiles` returns
holds a key exactly when some input fragment holds it, and maps it to the
concatenation, in input-list order, of the sequences the fragments hold for that
key: nothing is overwritten or dropped. -/
theorem combineProfiles_registry {P : Type} (t : ProfileTools P) (profiles : List P)
    (msrcs : List MappingSources) (p : P) (msrc : MappingSources)
    (h : combineProfiles t profiles msrcs = .ok (p, msrc)) (k : String) :
    (k ∈ msrc ↔ ∃ ms ∈ msrcs, k ∈ ms) ∧
      ((∃ ms ∈ msrcs, k ∈ ms) → msrc.lookup k = some (fragmentsAt k msrcs).flatten) := by
  have hm : msrc = combineMappingSources msrcs := by
    rw [combineProfiles_eq] at h
    cases hs : scaleMerge t profiles with
    | error e => rw [hs] at h; cases h
    | ok q =>
      rw [hs] at h
      injection h with h
      injection h with _ h2
      exact h2.symm
  subst hm
  have hl := lookup_combineMappingSources k msrcs
  have hnil := fragmentsAt_eq_nil k msrcs
  constructor
  · rw [← AList.lookup_isSome, hl]
    by_cases hf : fragmentsAt k msrcs = []
    · simp only [hf, if_true]
      constructor
      · intro hh; cases hh
      · intro hh; exact absurd hh (hnil.mp hf)
    · simp only [hf, if_false]
      constructor
      · intro _; exact not_not.mp (fun hh => hf (hnil.mpr hh))
      · intro _; rfl
  · intro hex
    have hf : fragmentsAt k msrcs ≠ [] := fun hf => (hnil.mp hf) hex
    rw [hl]
    simp only [hf, if_false]

theorem combineProfiles_registry_witness :
    combineProfiles sumTools [1, 2] [fragA, fragB] =
        .ok (3, combineMappingSources [fragA, fragB]) ∧
      (combineMappingSources [fragA, fragB]).lookup "abc123" =
        some [⟨"http://a/profile", 4096⟩, ⟨"http://b/profile", 8192⟩] :=
  ⟨rfl,
    ((combineProfiles_registry sumTools [1, 2] [fragA, fragB] 3
      (combineMappingSources [fragA, fragB]) rfl "abc123").2
        ⟨fragA, by simp, by decide⟩).trans (by decide)⟩


/-! ## Claims about the URL resolver and the HTTP fetch -/

/-- C5, as stated, fails: for the recognised URL `http://myhost:8080/profile`, no
caller timeout and a caller duration of 7,000,000,000 whole seconds (a valid
`int64` count of nanoseconds, and the effective duration), the returned timeout
is the wrapped sum `d + d/2`, a negative number, not 1.5 times the duration; and
for a duration of one nanosecond the returned timeout is one nanosecond. -/
theorem adjustURL_timeout_not_one_and_a_half :
    resolveURL sampleURLTools "http://myhost:8080/profile" =
        some ⟨"http", "myhost:8080", "/profile", ""⟩ ∧
      isInt64 (7000000000 * second) ∧
      effectiveDuration (sampleURLTools.Query ⟨"http", "myhost:8080", "/profile", ""⟩)
        (7000000000 * second) = 7000000000 * second ∧
      (adjustURL sampleURLTools "http://myhost:8080/profile" (7000000000 * second) 0).2 =
        -7946744073709551616 ∧
      2 * (adjustURL sampleURLTools "http://myhost:8080/profile" (7000000000 * second) 0).2 ≠
        3 * (7000000000 * second) ∧
      (adjustURL sampleURLTools "http://myhost:8080/profile" 1 0).2 = 1 ∧
      2 * (adjustURL sampleURLTools "http://myhost:8080/profile" 1 0).2 ≠ 3 * 1 := by
  refine ⟨rfl, ⟨by decide, by decide⟩, by decide, by decide, by decide, by decide, by decide⟩

/-- C5, amended: for a source `adjustURL` recognises as a URL, a positive caller
timeout is returned unchanged; otherwise, with `d` the effective duration, the
returned timeout is `d + d/2` in wrapping 64-bit nanosecond arithmetic when `d`
is positive, which is exactly 1.5 times `d` when `d` is an even number of
nanoseconds with `3 * d < 2 ^ 64` and in particular whenever `d` was parsed from
the `seconds` parameter; and it is exactly 60 seconds when `d` is not positive. -/
theorem adjustURL_timeout (u : URLTools) (source : String) (duration timeout : Int) (x : URL)
    (hx : resolveURL u source = some x) :
    (0 < timeout → (adjustURL u source duration timeout).2 = timeout) ∧
      (timeout ≤ 0 → 0 < effectiveDuration (u.Query x) duration →
        (adjustURL u source duration timeout).2 =
          wrap64 (effectiveDuration (u.Query x) duration +
            (effectiveDuration (u.Query x) duration).tdiv 2)) ∧
      (timeout ≤ 0 → 0 < effectiveDuration (u.Query x) duration →
        effectiveDuration (u.Query x) duration % 2 = 0 →
        3 * effectiveDuration (u.Query x) duration < 2 ^ 64 →
        2 * (adjustURL u source duration timeout).2 =
          3 * effectiveDuration (u.Query x) duration) ∧
      (timeout ≤ 0 → duration ≤ 0 → 0 < effectiveDuration (u.Query x) duration →
        2 * (adjustURL u source duration timeout).2 =
          3 * effectiveDuration (u.Query x) duration) ∧
      (timeout ≤ 0 → effectiveDuration (u.Query x) duration ≤ 0 →
        (adjustURL u source duration timeout).2 = 60 * second) := by
  rw [adjustURL_snd u source duration timeout x hx]
  obtain ⟨hpos, hnonpos⟩ := adjustDuration_effective (u.Query x) duration
  generalize effectiveDuration (u.Query x) duration = d at hpos hnonpos
  have hexact : timeout ≤ 0 → 0 < d → d % 2 = 0 → 3 * d < 2 ^ 64 →
      2 * adjustTimeout (adjustDuration (u.Query x) duration) timeout = 3 * d := by
    intro ht hd hev hsmall
    rw [hpos hd]
    unfold adjustTimeout
    simp only [ht, hd, if_true, gt_iff_lt]
    have htd : d.tdiv 2 = d / 2 := Int.tdiv_eq_ediv (by omega) (by omega)
    rw [htd, wrap64_of_range _ (by omega) (by omega)]
    omega
  refine ⟨?_, ?_, hexact, ?_, ?_⟩
  · intro ht
    unfold adjustTimeout
    simp [not_le.mpr ht]
  · intro ht hd
    rw [hpos hd]
    unfold adjustTimeout
    simp [ht, hd]
  · intro ht hdur hd
    have hval : ∃ us : Int, d = us * second ∧ us < 2 ^ 31 := by
      have h1 := hpos hd
      unfold adjustDuration at h1
      simp only [gt_iff_lt, not_lt.mpr hdur, if_false] at h1
      split at h1
      · split at h1
        · rename_i us hp
          have hr := parseInt32_range _ us hp
          refine ⟨us, ?_, hr.2⟩
          rw [← h1]
          apply wrap64_of_range <;> unfold second <;> omega
        · omega
      · omega
    obtain ⟨us, hus, hlt⟩ := hval
    unfold second at hus
    exact hexact ht hd (by omega) (by omega)
  · intro ht hd
    have := hnonpos hd
    unfold adjustTimeout
    simp [ht, not_lt.mpr this]

theorem adjustURL_timeout_witness :
    resolveURL sampleURLTools "myhost:8080/profile?seconds=5" =
        some ⟨"http", "myhost:8080", "/profile", "seconds=5"⟩ ∧
      effectiveDuration (sampleURLTools.Query ⟨"http", "myhost:8080", "/profile", "seconds=5"⟩) 0 =
        5 * second ∧
      2 * (adjustURL sampleURLTools "myhost:8080/profile?seconds=5" 0 0).2 =
        3 * effectiveDuration
          (sampleURLTools.Query ⟨"http", "myhost:8080", "/profile", "seconds=5"⟩) 0 :=
  ⟨rfl, by decide,
    (adjustURL_timeout sampleURLTools "myhost:8080/profile?seconds=5" 0 0
      ⟨"http", "myhost:8080", "/profile", "seconds=5"⟩ rfl).2.2.2.1
      (by decide) (by decide) (by decide)⟩

/-- C9, as stated, fails: a response obtained without transport error that
carries the 2xx success status 204 is answered with an error, not with its body. -/
theorem fetchURL_rejects_204 :
    fetchURL (statusTransport 204 "204 No Content") "http://myhost:8080/profile" 60000000000 =
      .error "server response: 204 No Content" := by
  rfl

/-- C9, amended: for a response obtained without transport error, `fetchURL`
returns the body as the profile stream exactly when the status code is 200, and
an error (no stream) for every other status code, the other 2xx codes included;
a transport error of the GET is always returned as an error. -/
theorem fetchURL_status (httpGet : HTTPGet) (source : String) (timeout : Int) :
    (∀ resp, httpGet source timeout = .ok resp → resp.StatusCode = 200 →
        fetchURL httpGet source timeout = .ok resp.Body) ∧
      (∀ resp, httpGet source timeout = .ok resp → resp.StatusCode ≠ 200 →
        fetchURL httpGet source timeout = .error ("server response: " ++ resp.Status)) ∧
      (∀ err, httpGet source timeout = .error err →
        fetchURL httpGet source timeout = .error ("http fetch " ++ source ++ ": " ++ err)) := by
  refine ⟨?_, ?_, ?_⟩
  · intro resp h hc
    simp [fetchURL, h, hc]
  · intro resp h hc
    simp [fetchURL, h, hc]
  · intro err h
    simp [fetchURL, h]

theorem fetchURL_status_witness :
    fetchURL (statusTransport 200 "200 OK") "http://myhost:8080/profile" 60000000000 =
        .ok [31, 139] ∧
      fetchURL (statusTransport 404 "404 Not Found") "http://myhost:8080/profile" 60000000000 =
        .error "server response: 404 Not Found" :=
  ⟨(fetchURL_status (statusTransport 200 "200 OK") "http://myhost:8080/profile" 60000000000).1
      ⟨200, "200 OK", [31, 139]⟩ rfl rfl,
    (fetchURL_status (statusTransport 404 "404 Not Found") "http://myhost:8080/profile"
      60000000000).2.1 ⟨404, "404 Not Found", [31, 139]⟩ rfl (by decide)⟩


/-! ## Claims about the format sniffer -/

/-- C6: for a file that opens and whose handle reads and seeks without fault,
`profileProtoReader` hands the path to the converter if and only if the first
eight bytes are exactly `PERFILE2` (and then returns what conversion and
reopening give); for every other content, the empty file and files shorter than
eight bytes included, it returns without error the original handle at offset 0,
from which the full, unchanged content is read. -/
theorem profileProtoReader_sniffs (e : ReaderEnv) (path : String) (d : FileData)
    (hopen : e.Open path = .ok d) (hread : d.readFault = none) (hseek : d.seekFault = none) :
    ((profileProtoReader e path).converted ≠ [] ↔ d.content.take 8 = perfHeader) ∧
      (d.content.take 8 = perfHeader →
        (profileProtoReader e path).converted = [path] ∧
          (profileProtoReader e path).result =
            match convertPerfData e path with
            | .error convertErr => .error convertErr
            | .ok profileFile => openFile e profileFile) ∧
      (d.content.take 8 ≠ perfHeader →
        (profileProtoReader e path).converted = [] ∧
          (profileProtoReader e path).result = .ok ⟨d, 0⟩ ∧
          (⟨d, 0⟩ : File).readAll = d.content) := by
  rw [profileProtoReader_eq e path d hopen hread hseek]
  by_cases hh : d.content.take 8 = perfHeader
  · rw [if_pos hh]
    cases hc : convertPerfData e path with
    | error convertErr =>
      exact ⟨⟨fun _ => hh, fun _ => by simp⟩, fun _ => ⟨rfl, rfl⟩, fun h => absurd hh h⟩
    | ok profileFile =>
      exact ⟨⟨fun _ => hh, fun _ => by simp⟩, fun _ => ⟨rfl, rfl⟩, fun h => absurd hh h⟩
  · rw [if_neg hh]
    exact ⟨⟨fun h => absurd rfl h, fun h => absurd h hh⟩, fun h => absurd h hh,
      fun _ => ⟨rfl, rfl, rfl⟩⟩

theorem profileProtoReader_sniffs_witness :
    (profileProtoReader sampleReaderEnv "short.data").result =
        .ok ⟨⟨[80, 69, 82, 70, 73, 76, 69], none, none⟩, 0⟩ ∧
      (profileProtoReader sampleReaderEnv "short.data").converted = [] ∧
      (profileProtoReader sampleReaderEnv "perf.data").converted = ["perf.data"] :=
  ⟨((profileProtoReader_sniffs sampleReaderEnv "short.data"
      ⟨[80, 69, 82, 70, 73, 76, 69], none, none⟩ rfl rfl rfl).2.2 (by decide)).2.1,
    ((profileProtoReader_sniffs sampleReaderEnv "short.data"
      ⟨[80, 69, 82, 70, 73, 76, 69], none, none⟩ rfl rfl rfl).2.2 (by decide)).1,
    ((profileProtoReader_sniffs sampleReaderEnv "perf.data"
      ⟨[80, 69, 82, 70, 73, 76, 69, 50, 1, 2, 3], none, none⟩ rfl rfl rfl).2.1 (by decide)).1⟩


/-! ## Claims about the binary locator -/

/-- C7, as stated, fails on the first mapping under a descriptor override.  The
profile's first mapping is `foo` with build identity `abc123`.  With the
executable name overridden to `/x/bar` and an object tool under which no
candidate opens, the mapping's file is not left as it was: it becomes `/x/bar`.
With the build identity overridden to `zzz`, the file `/p1/zzz/foo`, whose
inspected build identity `zzz` differs from the mapping's `abc123`, is accepted
and the mapping is rewritten to it. -/
theorem locateBinaries_override_rewrites_first :
    fooProfile.Mapping = [⟨4096, 8192, 0, "foo", "abc123"⟩] ∧
      (candidatesOf cacheTools ⟨4096, 8192, 0, "foo", "abc123"⟩).all
        (fun name => !opens noObj ⟨4096, 8192, 0, "foo", "abc123"⟩ name) = true ∧
      (candidatesOf cacheTools ⟨4096, 8192, 0, "/x/bar", "abc123"⟩).all
        (fun name => !opens noObj ⟨4096, 8192, 0, "/x/bar", "abc123"⟩ name) = true ∧
      (locateBinaries cacheTools noObj fooProfile execNameSource).Mapping =
        [⟨4096, 8192, 0, "/x/bar", "abc123"⟩] ∧
      zzzObj "/p1/zzz/foo" 4096 8192 0 = .ok ⟨"zzz"⟩ ∧
      "zzz" ≠ "abc123" ∧
      (locateBinaries cacheTools zzzObj fooProfile buildIDSource).Mapping =
        [⟨4096, 8192, 0, "/p1/zzz/foo", "zzz"⟩] := by
  refine ⟨rfl, by decide, by decide, by decide, rfl, by decide, by decide⟩

/-- C7, amended: take the mapping at index `i` as the search sees it, `m`: the
profile's mapping after the descriptor's executable-name and build-identity
overrides have been applied to the first mapping (every other mapping, and the
first one without overrides, is searched as it is), with non-empty build
identity `b`.  `locateBinaries` leaves at index `i` a mapping `m1` such that: if
for a search path entry `P` the candidate `P/b/f` is the first candidate that
opens and its inspected build identity is `b`, the file of `m1` is that path;
`m1` is either `m` unchanged or `m` with its file rewritten to a candidate that
opens with inspected build identity `b` (a candidate reporting another identity
is never accepted); and if every candidate that opens reports an identity other
than `b`, `m1` is `m`, file path included, which is the profile's own mapping
whenever no override applies.  No error can be raised: the function returns the
profile. -/
theorem locateBinaries_build_id {R : Type} (e : PathTools) (obj : ObjTool) (p : Profile R)
    (s : Source) (i : Nat) (m0 m : Mapping) (hm : p.Mapping[i]? = some m0)
    (hmo : overrideMapping s i m0 = m) (hb : m.BuildID ≠ "") :
    ∃ m1, (locateBinaries e obj p s).Mapping[i]? = some m1 ∧
      (∀ P ∈ e.SplitList (searchPath e), ∀ f,
        (candidatesOf e m).find? (opens obj m) = some (idCandidate e m P) →
        obj (idCandidate e m P) m.Start m.Limit m.Offset = .ok f →
        f.BuildID = m.BuildID → m1.File = idCandidate e m P) ∧
      (m1 = m ∨ ∃ name f, name ∈ candidatesOf e m ∧
        obj name m.Start m.Limit m.Offset = .ok f ∧ f.BuildID = m.BuildID ∧
        m1 = { m with File := name }) ∧
      ((∀ name ∈ candidatesOf e m, ∀ f, obj name m.Start m.Limit m.Offset = .ok f →
          f.BuildID ≠ m.BuildID) → m1 = m) ∧
      ((i ≠ 0 ∨ (s.ExecName = "" ∧ s.BuildID = "")) → m = m0) := by
  refine ⟨locateMapping e obj s i m0, ?_, ?_, ?_, ?_, ?_⟩
  · rw [locateBinaries_getElem, hm]
    rfl
  · intro P _ f hfirst hobj hid
    have hs : locateSearch e obj s i m0 = some (idCandidate e m P) := by
      rw [locateSearch_eq, hmo]
      exact tryNames_first_open obj m _ f hobj hid _ hfirst
    unfold locateMapping
    rw [hs]
  · unfold locateMapping
    cases hs : locateSearch e obj s i m0 with
    | none => exact Or.inl hmo
    | some name =>
      right
      rw [locateSearch_eq, hmo] at hs
      obtain ⟨hmem, f, hobj, hacc⟩ := tryNames_some obj m _ name hs
      refine ⟨name, f, hmem, hobj, ?_, by rw [hmo]⟩
      by_contra hne
      exact hacc ⟨hb, fun h => hne h.symm⟩
  · intro hall
    have hs : locateSearch e obj s i m0 = none := by
      rw [locateSearch_eq, hmo]
      exact tryNames_none obj m _ hb hall
    unfold locateMapping
    rw [hs]
    exact hmo
  · intro h
    rw [← hmo]
    exact overrideMapping_none s i m0 h

theorem locateBinaries_build_id_witness :
    (∃ m1, (locateBinaries cacheTools exactObj fooProfile plainSource).Mapping[0]? = some m1 ∧
        m1.File = "/p2/abc123/foo") ∧
      (∃ m1, (locateBinaries cacheTools wrongObj fooProfile plainSource).Mapping[0]? = some m1 ∧
        m1 = ⟨4096, 8192, 0, "foo", "abc123"⟩) := by
  constructor
  · obtain ⟨m1, h1, h2, _⟩ :=
      locateBinaries_build_id cacheTools exactObj fooProfile plainSource 0
        ⟨4096, 8192, 0, "foo", "abc123"⟩ ⟨4096, 8192, 0, "foo", "abc123"⟩ rfl rfl (by decide)
    exact ⟨m1, h1, h2 "/p2" (by decide) ⟨"abc123"⟩ (by decide) rfl rfl⟩
  · obtain ⟨m1, h1, _, _, h4, _⟩ :=
      locateBinaries_build_id cacheTools wrongObj fooProfile plainSource 0
        ⟨4096, 8192, 0, "foo", "abc123"⟩ ⟨4096, 8192, 0, "foo", "abc123"⟩ rfl rfl (by decide)
    refine ⟨m1, h1, h4 ?_⟩
    intro name hname f hobj
    have hc : candidatesOf cacheTools ⟨4096, 8192, 0, "foo", "abc123"⟩ =
        ["/p1/abc123/foo", "/p1/foo", "/p2/abc123/foo", "/p2/abc123/other", "/p2/foo"] := by
      decide
    rw [hc] at hname
    simp only [List.mem_cons, List.mem_singleton, List.not_mem_nil, or_false] at hname
    rcases hname with h | h | h | h | h <;> subst h <;> simp [wrongObj] at hobj
    rw [← hobj]
    decide

/-- C8, as stated, fails: with search path `/p1:/p2`, a mapping for `foo` with
build identity `abc123` is resolved by the first run, through the glob of the
cache directory, to `/p2/abc123/other`; the second run searches for the base
name `other` and rewrites the same mapping to `/p1/other`. -/
theorem locateBinaries_second_run_moves :
    (locateBinaries cacheTools cacheObj fooProfile plainSource).Mapping =
        [⟨4096, 8192, 0, "/p2/abc123/other", "abc123"⟩] ∧
      (locateBinaries cacheTools cacheObj
          (locateBinaries cacheTools cacheObj fooProfile plainSource) plainSource).Mapping =
        [⟨4096, 8192, 0, "/p1/other", "abc123"⟩] := by
  decide

/-- C8, amended: a mapping that a first run of `locateBinaries` resolved to a
local path keeps exactly that path (and all its other fields) in a second run on
the result, under the same descriptor and environment, provided the second run
searches under the same base name as the first: either an executable-name
override fixes the first mapping's file, or the base name of the resolved path is
the base name the first run searched for. -/
theorem locateBinaries_idempotent {R : Type} (e : PathTools) (obj : ObjTool) (p : Profile R)
    (s : Source) (i : Nat) (m0 : Mapping) (name : String) (hm : p.Mapping[i]? = some m0)
    (hres : locateSearch e obj s i m0 = some name)
    (hbase : (i = 0 ∧ s.ExecName ≠ "") ∨
      searchBase e { overrideMapping s i m0 with File := name } =
        searchBase e (overrideMapping s i m0)) :
    (locateBinaries e obj p s).Mapping[i]? =
        some { overrideMapping s i m0 with File := name } ∧
      (locateBinaries e obj (locateBinaries e obj p s) s).Mapping[i]? =
        some { overrideMapping s i m0 with File := name } := by
  have hfirst : (locateBinaries e obj p s).Mapping[i]? =
      some { overrideMapping s i m0 with File := name } := by
    rw [locateBinaries_getElem, hm]
    simp only [Option.map_some', locateMapping, hres]
  refine ⟨hfirst, ?_⟩
  rw [locateBinaries_getElem, hfirst]
  simp only [Option.map_some', locateMapping]
  rw [locateSearch_rewritten e obj s i m0 name hbase, hres, overrideMapping_again]
  by_cases hov : i = 0 ∧ s.ExecName ≠ ""
  · rw [if_pos hov]
  · rw [if_neg hov]

theorem locateBinaries_idempotent_witness :
    locateSearch cacheTools cacheObj plainSource 0 ⟨4096, 8192, 0, "/remote/bin/other", "abc123"⟩ =
        some "/p1/other" ∧
      (locateBinaries cacheTools cacheObj otherProfile plainSource).Mapping[0]? =
        some ⟨4096, 8192, 0, "/p1/other", "abc123"⟩ ∧
      (locateBinaries cacheTools cacheObj
          (locateBinaries cacheTools cacheObj otherProfile plainSource) plainSource).Mapping[0]? =
        some ⟨4096, 8192, 0, "/p1/other", "abc123"⟩ :=
  ⟨by decide,
    locateBinaries_idempotent cacheTools cacheObj otherProfile plainSource 0
      ⟨4096, 8192, 0, "/remote/bin/other", "abc123"⟩ "/p1/other" rfl (by decide)
      (Or.inr (by decide))⟩


/-! ## Claims about the mapping sources of one profile -/

/-- C10, as stated, fails: for the origin label `http://host/profile` and a
profile whose only mapping has neither build identity nor file, the pair is not
filed under the mapping's (empty) file path but under the origin label, and the
mapping's file is set to the origin label. -/
theorem collectMappingSources_bare_mapping :
    specKey ⟨4096, 8192, 0, "", ""⟩ = "" ∧
      (collectMappingSources bareProfile "http://host/profile").1.lookup "" = none ∧
      (collectMappingSources bareProfile "http://host/profile").1.lookup "http://host/profile" =
        some [⟨"http://host/profile", 4096⟩] ∧
      (collectMappingSources bareProfile "http://host/profile").2.Mapping =
        [⟨4096, 8192, 0, "http://host/profile", ""⟩] := by
  decide

/-- C10, amended: for every profile and origin label, `collectMappingSources`
returns a registry in which every mapping contributes exactly one pair (origin
label, that mapping's start address), filed under the mapping's build identity
when it is non-empty, else under its file path when that is non-empty, else
under the origin label: a key is present exactly when it is the key of some
mapping, the pairs under a key are those of the mappings with that key in mapping
order, and the total number of pairs is the number of mappings.  For a mapping
with a build identity or a file this key is the one the specification names; in
every case it is the build identity or else the file path of the mapping as the
call leaves it, since the call sets the file of a mapping that has neither to the
origin label. -/
theorem collectMappingSources_registry {R : Type} (p : Profile R) (source k : String) :
    (k ∈ (collectMappingSources p source).1 ↔ ∃ m ∈ p.Mapping, sourceKey source m = k) ∧
      ((collectMappingSources p source).1.lookup k).getD [] =
        (p.Mapping.filter (fun m => sourceKey source m = k)).map
          (fun m => ⟨source, m.Start⟩) ∧
      pairCount (collectMappingSources p source).1 = p.Mapping.length ∧
      (∀ m ∈ p.Mapping, m.BuildID ≠ "" ∨ m.File ≠ "" → sourceKey source m = specKey m) ∧
      (∀ (j : Nat) (m : Mapping), p.Mapping[j]? = some m →
        ∃ m2, (collectMappingSources p source).2.Mapping[j]? = some m2 ∧
          m2.Start = m.Start ∧ m2.BuildID = m.BuildID ∧ specKey m2 = sourceKey source m) := by
  have hl := lookup_collectFrom source k p.Mapping ∅
  have hfilter : (p.Mapping.filter (fun m => sourceKey source m = k)) = [] ↔
      ¬ ∃ m ∈ p.Mapping, sourceKey source m = k := by
    rw [List.filter_eq_nil_iff]
    constructor
    · rintro h ⟨m, hm, hk⟩
      exact h m hm (by simpa using hk)
    · intro h m hm hk
      exact h ⟨m, hm, by simpa using hk⟩
  refine ⟨?_, ?_, ?_, ?_, ?_⟩
  · show k ∈ (collectFrom source ∅ p.Mapping).1 ↔ _
    rw [← AList.lookup_isSome, hl]
    by_cases hf : (p.Mapping.filter (fun m => sourceKey source m = k)) = []
    · rw [if_pos hf]
      constructor
      · intro h; simp at h
      · intro h; exact absurd h (hfilter.mp hf)
    · rw [if_neg hf]
      constructor
      · intro _; exact not_not.mp (fun h => hf (hfilter.mpr h))
      · intro _; rfl
  · show ((collectFrom source ∅ p.Mapping).1.lookup k).getD [] = _
    rw [hl]
    by_cases hf : (p.Mapping.filter (fun m => sourceKey source m = k)) = []
    · rw [if_pos hf, hf]
      simp
    · rw [if_neg hf]
      simp
  · show pairCount (collectFrom source ∅ p.Mapping).1 = _
    rw [pairCount_collectFrom]
    simp [pairCount]
  · intro m _ h
    unfold sourceKey specKey
    by_cases hb : m.BuildID = ""
    · rcases h with h | h
      · exact absurd hb h
      · simp [hb, h]
    · simp [hb]
  · intro j m hj
    have hk := collectStep_snd_key source m
    refine ⟨(collectStep source ∅ m).2, ?_, hk.1, hk.2.1, hk.2.2⟩
    show (collectFrom source ∅ p.Mapping).2[j]? = _
    rw [collectFrom_snd, List.getElem?_map, hj]
    rfl

theorem collectMappingSources_registry_witness :
    ((collectMappingSources threeMappings "http://host/profile").1.lookup "abc123").getD [] =
        [⟨"http://host/profile", 4096⟩, ⟨"http://host/profile", 8192⟩] ∧
      pairCount (collectMappingSources threeMappings "http://host/profile").1 = 3 :=
  ⟨(collectMappingSources_registry threeMappings "http://host/profile" "abc123").2.1.trans
      (by decide),
    (collectMappingSources_registry threeMappings "http://host/profile" "abc123").2.2.1⟩


end Driver
